import Mathlib

/-!
Shallow embedding of the xencat-light-client bridge programs
(`solana-light-client-x1`, `xencat-mint-x1`, `dgn-mint-x1`).

Bytes are modelled as `List Nat` (each entry a `u8` value), public keys as
32-byte lists, `u64` values as `Nat` with explicit `2^64` bounds where the
source uses checked arithmetic.  The SHA-256 / keccak-256 hash primitives of
the Solana runtime are modelled as an explicit function parameter
`h : Bytes → Bytes`; every property proved about a hashed message either
holds for all `h` or assumes `Function.Injective h` (collision freedom).

Solana/Anchor account semantics are modelled as a pure state machine: a
`Chain` value holds the singleton `X1ValidatorSet` and `MintState` accounts
and association lists for the keyed PDA records; `init` of an existing PDA
fails with `AccountAlreadyInUse`; a returned `Except.error` corresponds to a
transaction abort in which no state change and no token mint or fee transfer
is observable (transactions are atomic).
-/

/-- Byte strings (each entry is a `u8` value `< 256`). -/
abbrev Bytes := List Nat

/-- An ed25519 public key, as its 32-byte representation (`Pubkey.to_bytes`). -/
abbrev Pubkey := Bytes

/-- ASCII bytes of a string literal (all literals used are 7-bit ASCII). -/
def strBytes (s : String) : Bytes :=
  s.data.map (fun c => c.toNat)

/-- The `u64::to_le_bytes`: the 8 little-endian bytes of a `u64`. -/
def u64LE (n : Nat) : Bytes :=
  [n % 256, n / 256 % 256, n / 65536 % 256, n / 16777216 % 256,
   n / 4294967296 % 256, n / 1099511627776 % 256,
   n / 281474976710656 % 256, n / 72057594037927936 % 256]

/-- Little-endian value of a byte string (Borsh `u64` decoding). -/
def u64FromLE (bs : Bytes) : Nat :=
  bs.foldr (fun b acc => b + 256 * acc) 0

/-- The `u64::checked_add`: fails (returns `none`) instead of wrapping past `u64::MAX`. -/
def u64CheckedAdd (a b : Nat) : Option Nat :=
  if a + b < 18446744073709551616 then some (a + b) else none

/-- The `u64::checked_mul`: fails (returns `none`) instead of wrapping past `u64::MAX`. -/
def u64CheckedMul (a b : Nat) : Option Nat :=
  if a * b < 18446744073709551616 then some (a * b) else none

/-- The `u64::saturating_add`, clamping at `u64::MAX`. -/
def u64SaturatingAdd (a b : Nat) : Nat :=
  min (a + b) 18446744073709551615

/-- Lexicographic `<=` on byte arrays (the derived Rust `Ord` on `[u8; 32]`;
the compared arrays always have equal length in the source). -/
def leBytes : Bytes → Bytes → Bool
  | [], [] => true
  | [], _ :: _ => true
  | _ :: _, [] => false
  | a :: as, b :: bs => if a < b then true else if b < a then false else leBytes as bs

theorem u64LE_length (n : Nat) : (u64LE n).length = 8 := rfl

theorem u64LE_inj {a b : Nat} (ha : a < 18446744073709551616)
    (hb : b < 18446744073709551616) (h : u64LE a = u64LE b) : a = b := by
  simp only [u64LE, List.cons.injEq, and_true] at h
  omega

theorem leBytes_total (a b : Bytes) : leBytes a b = true ∨ leBytes b a = true := by
  induction a generalizing b with
  | nil => cases b <;> simp [leBytes]
  | cons x xs ih =>
    cases b with
    | nil => simp [leBytes]
    | cons y ys =>
      by_cases hxy : x < y
      · left; simp [leBytes, hxy]
      · by_cases hyx : y < x
        · right; simp [leBytes, hyx, Nat.lt_asymm hyx]
        · have hxe : x = y := Nat.le_antisymm (Nat.not_lt.mp hyx) (Nat.not_lt.mp hxy)
          subst hxe
          simpa [leBytes] using ih ys

theorem leBytes_antisymm {a b : Bytes} (hab : leBytes a b = true)
    (hba : leBytes b a = true) : a = b := by
  induction a generalizing b with
  | nil =>
    cases b with
    | nil => rfl
    | cons y ys => simp [leBytes] at hba
  | cons x xs ih =>
    cases b with
    | nil => simp [leBytes] at hab
    | cons y ys =>
      by_cases hxy : x < y
      · simp [leBytes, hxy, Nat.lt_asymm hxy] at hba
      · by_cases hyx : y < x
        · simp [leBytes, hyx, Nat.lt_asymm hyx] at hab
        · have hxe : x = y := Nat.le_antisymm (Nat.not_lt.mp hyx) (Nat.not_lt.mp hxy)
          subst hxe
          simp only [leBytes, lt_irrefl, if_false] at hab hba
          rw [ih hab hba]

/-! ## Light-client data model (`solana-light-client-x1/src/state.rs`, `errors.rs`) -/

/-- The `DOMAIN_SEPARATOR` from `solana-light-client-x1/src/lib.rs`. -/
def DOMAIN_SEPARATOR : String := "XENCAT_X1_BRIDGE_V1"

/-- Error codes of the light client (`errors.rs`), together with the Anchor
framework errors that its account constraints can raise. -/
inductive LightClientError where
  | InvalidValidatorSignature
  | InvalidMerkleProof
  | DuplicateValidator
  | InvalidValidatorSetUpdate
  | ArithmeticOverflow
  | InvalidSignatureFormat
  | InvalidProofData
  | BurnRecordMismatch
  | BurnRecordDeserializationFailed
  | UnknownValidator
  | InsufficientAttestations
  | InvalidValidatorSetVersion
  | InsufficientSignatures
  | ValidatorNotInSet
  | InvalidThreshold
  | InvalidAsset
  | InvalidAttestation
  /-- Anchor: `init` of a PDA whose account already exists. -/
  | AccountAlreadyInUse
  deriving DecidableEq, Repr

/-- The `X1ValidatorSet` account (`state.rs`): trusted signer roster, version,
signature threshold.  `threshold` is a `u8` in the source. -/
structure X1ValidatorSet where
  version : Nat
  validators : List Pubkey
  threshold : Nat
  bump : Nat
  deriving DecidableEq, Repr

/-- The `ValidatorAttestation` (`state.rs`): the signed claim of one validator. -/
structure ValidatorAttestation where
  validator_pubkey : Pubkey
  signature : Bytes
  timestamp : Int
  deriving DecidableEq, Repr

/-- The `BurnAttestationData` (`state.rs`): the V2 (asset-unaware) request. -/
structure BurnAttestationData where
  burn_nonce : Nat
  user : Pubkey
  amount : Nat
  validator_set_version : Nat
  attestations : List ValidatorAttestation
  deriving DecidableEq, Repr

/-- The `BurnAttestationDataV3`: the asset-aware request consumed by
`submit_burn_attestation_v3`.  The struct declaration itself is not among the
provided sources; its fields are reconstructed from every access the handler
makes (`asset_id`, `burn_nonce`, `user`, `amount`, `validator_set_version`,
`attestations`), matching the BurnAttestationRequest row of the spec. -/
structure BurnAttestationDataV3 where
  asset_id : Nat
  burn_nonce : Nat
  user : Pubkey
  amount : Nat
  validator_set_version : Nat
  attestations : List ValidatorAttestation
  deriving DecidableEq, Repr

/-- The `VerifiedBurn` account (`state.rs`): V2 verification result. -/
structure VerifiedBurn where
  burn_nonce : Nat
  user : Pubkey
  amount : Nat
  verified_at : Int
  processed : Bool
  bump : Nat
  deriving DecidableEq, Repr

/-- The `VerifiedBurnV3` account: asset-aware verification result.  The struct
declaration is not among the provided sources; fields reconstructed from the
assignments in `submit_burn_attestation_v3.rs` and the constraints in the two
`mint_from_burn_v3.rs` files, matching the VerifiedBurnRecord row of the spec. -/
structure VerifiedBurnV3 where
  asset_id : Nat
  burn_nonce : Nat
  user : Pubkey
  amount : Nat
  verified_at : Int
  processed : Bool
  bump : Nat
  deriving DecidableEq, Repr

/-- The fixed asset enumeration.  Modelled from the spec: the `Asset` type of
the light client is referenced (`Asset::from_u8`, `Asset::XENCAT`,
`Asset::DGN`) but its definition is not among the provided sources; the spec
fixes the permanent mapping asset_id 1 = XENCAT, 2 = DGN. -/
inductive Asset where
  | XENCAT
  | DGN
  deriving DecidableEq, Repr

/-- Modelled from the spec: `Asset::from_u8`, the only constructor of `Asset`
used by the handlers.  Ids other than the two enumerated assets are rejected
with `InvalidAsset` ("Invalid asset ID - unknown or unsupported asset"). -/
def Asset.from_u8 (n : Nat) : Except LightClientError Asset :=
  if n = 1 then .ok .XENCAT
  else if n = 2 then .ok .DGN
  else .error .InvalidAsset

/-! ## Canonical message construction -/

/-- The `create_attestation_message_v3` (`submit_burn_attestation_v3.rs`):
`hash(DOMAIN_SEPARATOR || asset_id || validator_set_version || burn_nonce ||
amount || user)`, with the runtime SHA-256 passed as `h`. -/
def create_attestation_message_v3 (h : Bytes → Bytes) (asset_id : Nat)
    (burn_nonce : Nat) (user : Pubkey) (amount : Nat)
    (validator_set_version : Nat) : Bytes :=
  h (strBytes DOMAIN_SEPARATOR ++ [asset_id % 256] ++ u64LE validator_set_version
     ++ u64LE burn_nonce ++ u64LE amount ++ user)

/-- The `create_attestation_message` (`submit_burn_attestation.rs`): the V2
message, identical to V3 but without the asset byte. -/
def create_attestation_message (h : Bytes → Bytes) (burn_nonce : Nat)
    (user : Pubkey) (amount : Nat) (validator_set_version : Nat) : Bytes :=
  h (strBytes DOMAIN_SEPARATOR ++ u64LE validator_set_version
     ++ u64LE burn_nonce ++ u64LE amount ++ user)

/-- The `create_vote_message` (`ed25519_utils.rs`): `keccak256(block_hash || slot)`,
with the runtime keccak passed as `k`. -/
def create_vote_message (k : Bytes → Bytes) (block_hash : Bytes) (slot : Nat) : Bytes :=
  k (block_hash ++ u64LE slot)

/-- The `create_update_message` (`update_validator_set.rs`):
`hash("VALIDATOR_UPDATE" || current_version || new_validators || new_threshold)`. -/
def create_update_message (h : Bytes → Bytes) (current_version : Nat)
    (new_validators : List Pubkey) (new_threshold : Nat) : Bytes :=
  h (strBytes "VALIDATOR_UPDATE" ++ u64LE current_version
     ++ new_validators.flatten ++ [new_threshold % 256])

/-! ## Data model of the mint programs (`xencat-mint-x1`, `dgn-mint-x1`) -/

/-- The `MintError` codes of the two mint programs (`errors.rs` of each; the two
enums use slightly different constructor names for the same checks, all
collected here), together with the Anchor framework errors their account
constraints can raise. -/
inductive MintError where
  | BurnAlreadyProcessed
  | ProofAlreadyProcessed
  | InvalidUser
  | UserMismatch
  | NonceMismatch
  | Overflow
  | MissingValidatorAccount
  | InvalidValidatorAccount
  | ValidatorAccountNotWritable
  | ValidatorSetVersionMismatch
  | AssetNotMintable
  | AssetMismatch
  /-- the `InvalidAsset` of the light client, surfaced through `Asset::from_u8`. -/
  | InvalidAsset
  /-- Anchor: `init` of a PDA whose account already exists. -/
  | AccountAlreadyInUse
  /-- Anchor: the `verified_burn` PDA for the requested seeds does not exist. -/
  | AccountNotFound
  /-- Anchor: an unannotated `constraint = ...` failed
  (`user_token_account.owner == user.key()`). -/
  | ConstraintRaw
  deriving DecidableEq, Repr

/-- The `MintState` account (`xencat-mint-x1/src/state.rs` and the identically
shaped `dgn-mint-x1/src/state.rs`; `xencat_mint`/`dgn_mint` is `token_mint`). -/
structure MintState where
  authority : Pubkey
  token_mint : Pubkey
  fee_per_validator : Nat
  light_client_program : Pubkey
  validator_set_version : Nat
  processed_burns_count : Nat
  total_minted : Nat
  bump : Nat
  deriving DecidableEq, Repr

/-- The `ProcessedBurnV3` account (`dgn-mint-x1/src/state.rs`; the xencat program
uses the same struct, whose declaration is not among its provided sources). -/
structure ProcessedBurnV3 where
  asset_id : Nat
  nonce : Nat
  user : Pubkey
  amount : Nat
  processed_at : Int
  deriving DecidableEq, Repr

/-- The `ProcessedBurn` account (`xencat-mint-x1/src/state.rs`), the legacy
(asset-unaware) replay tracker of `mint_from_burn`. -/
structure ProcessedBurn where
  nonce : Nat
  user : Pubkey
  amount : Nat
  processed_at : Int
  deriving DecidableEq, Repr

/-- Key of a `VerifiedBurnV3` PDA:
seeds `["verified_burn_v3", asset_id, user, nonce]`. -/
abbrev VKey := Nat × Pubkey × Nat

/-- Key of a `ProcessedBurnV3` PDA:
seeds `["processed_burn_v3", asset_id, nonce, user]`. -/
abbrev PKey := Nat × Nat × Pubkey

/-- Association-list lookup (the keyed PDA store of the runtime). -/
def alookup {α β : Type} [DecidableEq α] : List (α × β) → α → Option β
  | [], _ => none
  | (k, v) :: r, k' => if k' = k then some v else alookup r k'

/-- Insert (create) a keyed record. -/
def ainsert {α β : Type} (l : List (α × β)) (k : α) (v : β) : List (α × β) :=
  (k, v) :: l

/-- Update the record stored at an existing key. -/
def aupdate {α β : Type} [DecidableEq α] : List (α × β) → α → β → List (α × β)
  | [], _, _ => []
  | (k, v) :: r, k', v' => if k' = k then (k', v') :: r else (k, v) :: aupdate r k' v'

/-- The persistent ledger state shared by the three programs: the singleton
`X1ValidatorSet` PDA, one `MintState` per mint program, and the keyed PDA
stores for verification results and replay guards. -/
structure Chain where
  validatorSet : X1ValidatorSet
  xencatMintState : MintState
  dgnMintState : MintState
  /-- The `VerifiedBurnV3` PDAs, keyed by `(asset_id, user, burn_nonce)`. -/
  verifiedBurns : List (VKey × VerifiedBurnV3)
  /-- V2 `VerifiedBurn` PDAs, keyed by `(user, burn_nonce)`. -/
  verifiedBurnsV2 : List ((Pubkey × Nat) × VerifiedBurn)
  /-- The `ProcessedBurnV3` PDAs, keyed by `(asset_id, burn_nonce, user)`.
  The two mint programs derive these under distinct program ids; the
  asset component separates them here (asset 1 records belong to the
  xencat program, asset 2 records to the dgn program). -/
  processedBurns : List (PKey × ProcessedBurnV3)
  /-- legacy `ProcessedBurn` PDAs of the xencat program, keyed by nonce. -/
  processedBurnsLegacy : List (Nat × ProcessedBurn)
  deriving DecidableEq, Repr

/-! ## Light-client instruction handlers -/

/-- The `verify_ed25519_signature` of `submit_burn_attestation_v3.rs`: format
validation only — the sizes are already enforced by the Rust types, so the
function unconditionally succeeds (trusted-validator model). -/
def verify_ed25519_signature_v3 (_public_key : Pubkey) (_message : Bytes)
    (_signature : Bytes) : Except LightClientError Unit :=
  .ok ()

/-- The `verify_ed25519_signature` of `submit_burn_attestation.rs`: format
validation only (signature length 64, pubkey length 32, non-empty message). -/
def verify_ed25519_signature_v2 (pubkey : Pubkey) (message : Bytes)
    (signature : Bytes) : Except LightClientError Unit :=
  if signature.length = 64 then
    if pubkey.length = 32 then
      if message.length > 0 then .ok ()
      else .error .InvalidProofData
    else .error .InvalidValidatorSignature
  else .error .InvalidSignatureFormat

/-- The `verify_ed25519_signature` of `update_validator_set.rs` (same format
checks as the V2 attestation path). -/
def verify_ed25519_signature_upd (pubkey : Pubkey) (message : Bytes)
    (signature : Bytes) : Except LightClientError Unit :=
  if signature.length = 64 then
    if pubkey.length = 32 then
      if ¬ message.isEmpty then .ok ()
      else .error .InvalidProofData
    else .error .InvalidValidatorSignature
  else .error .InvalidSignatureFormat

/-- The attestation loop shared textually by `submit_burn_attestation{,_v3}`:
for each attestation, reject a duplicate validator key (`seen` is the
`HashSet`), reject keys outside the roster, run the signature check, and
count the accepted attestations. -/
def countAttestations (verify : Pubkey → Bytes → Bytes → Except LightClientError Unit)
    (roster : List Pubkey) (message : Bytes) (seen : List Pubkey) :
    List ValidatorAttestation → Except LightClientError Nat
  | [] => .ok 0
  | a :: rest =>
    if a.validator_pubkey ∈ seen then .error .DuplicateValidator
    else if a.validator_pubkey ∈ roster then
      match verify a.validator_pubkey message a.signature with
      | .ok _ =>
        match countAttestations verify roster message (a.validator_pubkey :: seen) rest with
        | .ok n => .ok (n + 1)
        | .error e => .error e
      | .error e => .error e
    else .error .UnknownValidator

/-- Instruction arguments of `submit_burn_attestation_v3` together with the
transaction context the handler reads (signer key and clock). -/
structure SubmitV3Input where
  asset_id : Nat
  burn_nonce : Nat
  /-- The `ctx.accounts.user`: the signing (and paying) user. -/
  signer : Pubkey
  attestation : BurnAttestationDataV3
  /-- The `Clock::get()?.unix_timestamp`. -/
  now : Int
  deriving DecidableEq, Repr

/-- The `submit_burn_attestation_v3::handler` plus the account constraints of
`SubmitBurnAttestationV3` (the `init` of the `verified_burn` PDA at seeds
`["verified_burn_v3", asset_id, user, burn_nonce]` runs before the handler
and fails if the account exists). -/
def submit_burn_attestation_v3 (h : Bytes → Bytes) (c : Chain)
    (i : SubmitV3Input) : Except LightClientError Chain :=
  if (alookup c.verifiedBurns (i.asset_id, i.signer, i.burn_nonce)).isSome then
    .error .AccountAlreadyInUse
  else if ¬ (i.attestation.asset_id = i.asset_id) then .error .InvalidAttestation
  else if ¬ (i.attestation.burn_nonce = i.burn_nonce) then .error .InvalidAttestation
  else
    match Asset.from_u8 i.attestation.asset_id with
    | .error e => .error e
    | .ok _ =>
      if ¬ (i.attestation.validator_set_version = c.validatorSet.version) then
        .error .InvalidValidatorSetVersion
      else
        match countAttestations verify_ed25519_signature_v3
            c.validatorSet.validators
            (create_attestation_message_v3 h i.attestation.asset_id
              i.attestation.burn_nonce i.attestation.user i.attestation.amount
              i.attestation.validator_set_version)
            [] i.attestation.attestations with
        | .error e => .error e
        | .ok valid_count =>
          if valid_count < c.validatorSet.threshold then
            .error .InsufficientAttestations
          else
            .ok { c with
                    verifiedBurns :=
                      ainsert c.verifiedBurns (i.asset_id, i.signer, i.burn_nonce)
                        { asset_id := i.attestation.asset_id
                          burn_nonce := i.attestation.burn_nonce
                          user := i.signer
                          amount := i.attestation.amount
                          verified_at := i.now
                          processed := false
                          bump := 0 } }

/-- Instruction arguments and context of the V2 `submit_burn_attestation`. -/
structure SubmitV2Input where
  signer : Pubkey
  attestation : BurnAttestationData
  now : Int
  deriving DecidableEq, Repr

/-- The `submit_burn_attestation::handler` plus the account constraints of
`SubmitBurnAttestation` (the `init` of the `verified_burn` PDA at seeds
`["verified_burn_v2", user, burn_nonce]` runs before the handler). -/
def submit_burn_attestation (h : Bytes → Bytes) (c : Chain)
    (i : SubmitV2Input) : Except LightClientError Chain :=
  if (alookup c.verifiedBurnsV2 (i.signer, i.attestation.burn_nonce)).isSome then
    .error .AccountAlreadyInUse
  else if ¬ (i.attestation.validator_set_version = c.validatorSet.version) then
    .error .InvalidValidatorSetVersion
  else
    match countAttestations verify_ed25519_signature_v2
        c.validatorSet.validators
        (create_attestation_message h i.attestation.burn_nonce
          i.attestation.user i.attestation.amount i.attestation.validator_set_version)
        [] i.attestation.attestations with
    | .error e => .error e
    | .ok valid_count =>
      if valid_count < c.validatorSet.threshold then
        .error .InsufficientAttestations
      else
        .ok { c with
                verifiedBurnsV2 :=
                  ainsert c.verifiedBurnsV2 (i.signer, i.attestation.burn_nonce)
                    { burn_nonce := i.attestation.burn_nonce
                      user := i.signer
                      amount := i.attestation.amount
                      verified_at := i.now
                      processed := false
                      bump := 0 } }

/-- The `ValidatorUpdateSignature` (`update_validator_set.rs`). -/
structure ValidatorUpdateSignature where
  validator_pubkey : Pubkey
  signature : Bytes
  deriving DecidableEq, Repr

/-- The `UpdateValidatorSetParams` (`update_validator_set.rs`). -/
structure UpdateValidatorSetParams where
  new_validators : List Pubkey
  new_threshold : Nat
  approver_signatures : List ValidatorUpdateSignature
  deriving DecidableEq, Repr

/-- The approver loop of `verify_update_signatures`: reject duplicate
approvers, require membership in the current roster, run the format check,
count the verified signatures. -/
def countApprovers (current_validators : List Pubkey) (message : Bytes)
    (seen : List Pubkey) :
    List ValidatorUpdateSignature → Except LightClientError Nat
  | [] => .ok 0
  | s :: rest =>
    if s.validator_pubkey ∈ seen then .error .DuplicateValidator
    else if s.validator_pubkey ∈ current_validators then
      match verify_ed25519_signature_upd s.validator_pubkey message s.signature with
      | .ok _ =>
        match countApprovers current_validators message (s.validator_pubkey :: seen) rest with
        | .ok n => .ok (n + 1)
        | .error e => .error e
      | .error e => .error e
    else .error .ValidatorNotInSet

/-- The `verify_update_signatures` (`update_validator_set.rs`): ≥ threshold
non-duplicate approvals from members of the current set. -/
def verify_update_signatures (h : Bytes → Bytes) (params : UpdateValidatorSetParams)
    (current_validators : List Pubkey) (current_threshold : Nat)
    (current_version : Nat) : Except LightClientError Unit :=
  if params.approver_signatures.isEmpty then .error .InvalidValidatorSetUpdate
  else if params.approver_signatures.length < current_threshold then
    .error .InsufficientSignatures
  else
    match countApprovers current_validators
        (create_update_message h current_version params.new_validators
          params.new_threshold)
        [] params.approver_signatures with
    | .error e => .error e
    | .ok verified_count =>
      if verified_count < current_threshold then .error .InsufficientSignatures
      else .ok ()

/-- The `update_validator_set::handler`: validate the new configuration, verify
threshold approvals from the current roster, then bump the version with
`checked_add` and replace validators and threshold. -/
def update_validator_set (h : Bytes → Bytes) (c : Chain)
    (params : UpdateValidatorSetParams) : Except LightClientError Chain :=
  if params.new_validators.length < params.new_threshold then .error .InvalidThreshold
  else if ¬ (params.new_threshold > 0) then .error .InvalidThreshold
  else if params.new_validators.isEmpty then .error .InvalidValidatorSetUpdate
  else
    match verify_update_signatures h params c.validatorSet.validators
        c.validatorSet.threshold c.validatorSet.version with
    | .error e => .error e
    | .ok _ =>
      match u64CheckedAdd c.validatorSet.version 1 with
      | none => .error .ArithmeticOverflow
      | some new_version =>
        .ok { c with validatorSet :=
          { c.validatorSet with
              validators := params.new_validators
              threshold := params.new_threshold
              version := new_version } }

/-! ## Mint instruction (`mint_from_burn_v3` of both mint programs)

The xencat and dgn handlers are line-for-line identical except for the
hard-coded asset constant (1 = XENCAT, 2 = DGN), which `MintState` account
they use, and the names of two error codes; `MintProgramId` selects these. -/

/-- Which of the two (otherwise identical) mint programs executes. -/
inductive MintProgramId where
  | xencat
  | dgn
  deriving DecidableEq, Repr

/-- The `const ASSET_XENCAT: u8 = 1` / `const ASSET_DGN: u8 = 2`. -/
def MintProgramId.expectedAsset : MintProgramId → Nat
  | .xencat => 1
  | .dgn => 2

/-- The `Asset` variant each program requires after `Asset::from_u8`. -/
def MintProgramId.expectedAssetEnum : MintProgramId → Asset
  | .xencat => .XENCAT
  | .dgn => .DGN

/-- Error for the `!verified_burn.processed` constraint
(xencat: `ProofAlreadyProcessed`, dgn: `BurnAlreadyProcessed`). -/
def MintProgramId.processedErr : MintProgramId → MintError
  | .xencat => .ProofAlreadyProcessed
  | .dgn => .BurnAlreadyProcessed

/-- Error for the `verified_burn.user == user.key()` constraint
(xencat: `InvalidUser`, dgn: `UserMismatch`). -/
def MintProgramId.userErr : MintProgramId → MintError
  | .xencat => .InvalidUser
  | .dgn => .UserMismatch

/-- The `MintState` singleton of the given program. -/
def Chain.mintStateOf (c : Chain) : MintProgramId → MintState
  | .xencat => c.xencatMintState
  | .dgn => c.dgnMintState

/-- Replace the `MintState` singleton of the given program. -/
def Chain.setMintStateOf (c : Chain) (p : MintProgramId) (ms : MintState) : Chain :=
  match p with
  | .xencat => { c with xencatMintState := ms }
  | .dgn => { c with dgnMintState := ms }

/-- One caller-supplied fee-target account from `ctx.remaining_accounts`. -/
structure FeeTarget where
  key : Pubkey
  is_writable : Bool
  deriving DecidableEq, Repr

/-- The `MintedFromBurnV3` event emitted by both mint programs. -/
structure MintedFromBurnV3 where
  asset_id : Nat
  nonce : Nat
  user : Pubkey
  amount : Nat
  deriving DecidableEq, Repr

/-- Instruction arguments of `mint_from_burn_v3` together with the
transaction context the handler reads. -/
structure MintV3Input where
  burn_nonce : Nat
  asset_id : Nat
  /-- The `ctx.accounts.user`: the signing user and fee payer. -/
  user : Pubkey
  /-- owner field of the caller-supplied `user_token_account`. -/
  user_token_account_owner : Pubkey
  /-- The `ctx.remaining_accounts`: the caller-supplied fee-target accounts. -/
  remaining_accounts : List FeeTarget
  /-- The `Clock::get()?.unix_timestamp`. -/
  now : Int
  deriving DecidableEq, Repr

/-- Externally observable effects of one successful mint: the amount passed
to `token::mint_to`, the emitted event, and the lamport transfers executed
by the fee-distribution loop (target, amount). -/
structure MintOutcome where
  minted : Nat
  event : MintedFromBurnV3
  fee_transfers : List (Pubkey × Nat)
  deriving DecidableEq, Repr

/-- The fee-distribution loop (STEP 7 of both handlers): pair each validator
of the pinned set, in roster order, with `remaining_accounts[i]`; a missing
target, a key mismatch, or a non-writable target aborts; otherwise transfer
`fee` lamports from the user to each target. -/
def distributeFees (fee : Nat) :
    List Pubkey → List FeeTarget → Except MintError (List (Pubkey × Nat))
  | [], _ => .ok []
  | _ :: _, [] => .error .MissingValidatorAccount
  | v :: vs, t :: ts =>
    if ¬ (t.key = v) then .error .InvalidValidatorAccount
    else if ¬ t.is_writable then .error .ValidatorAccountNotWritable
    else
      match distributeFees fee vs ts with
      | .ok l => .ok ((t.key, fee) :: l)
      | .error e => .error e

/-- The `mint_from_burn_v3` of the selected mint program: the account constraints
of `MintFromBurnV3` (in Anchor declaration order: `init` of the
`processed_burn` PDA at `["processed_burn_v3", asset_id, burn_nonce, user]`,
the token-account owner constraint, the validator-set version constraint, and
the `verified_burn` constraints) followed by the handler (asset validation,
`token::mint_to` of the verified amount, marking the burn processed, creating
the `ProcessedBurnV3` record, fee distribution, saturating counter updates,
event emission).  An `Except.error` models the atomic abort of the whole
transaction: no mint, no record change, no fee transfer. -/
def mint_from_burn_v3 (p : MintProgramId) (c : Chain) (i : MintV3Input) :
    Except MintError (Chain × MintOutcome) :=
  if (alookup c.processedBurns (i.asset_id, i.burn_nonce, i.user)).isSome then
    .error .AccountAlreadyInUse
  else if ¬ (i.user_token_account_owner = i.user) then .error .ConstraintRaw
  else if ¬ (c.validatorSet.version = (c.mintStateOf p).validator_set_version) then
    .error .ValidatorSetVersionMismatch
  else
    match alookup c.verifiedBurns (i.asset_id, i.user, i.burn_nonce) with
    | none => .error .AccountNotFound
    | some verified =>
      if verified.processed then .error p.processedErr
      else if ¬ (verified.user = i.user) then .error p.userErr
      else if ¬ (verified.burn_nonce = i.burn_nonce) then .error .NonceMismatch
      else if ¬ (verified.asset_id = i.asset_id) then .error .AssetMismatch
      else if ¬ (i.asset_id = p.expectedAsset) then .error .AssetNotMintable
      else
        match Asset.from_u8 i.asset_id with
        | .error _ => .error .InvalidAsset
        | .ok asset =>
          if ¬ (asset = p.expectedAssetEnum) then .error .AssetNotMintable
          else
            match u64CheckedMul (c.mintStateOf p).fee_per_validator
                c.validatorSet.validators.length with
            | none => .error .Overflow
            | some _total_fee =>
              match (if (c.mintStateOf p).fee_per_validator > 0 then
                  distributeFees (c.mintStateOf p).fee_per_validator
                    c.validatorSet.validators i.remaining_accounts
                else .ok []) with
              | .error e => .error e
              | .ok transfers =>
                .ok
                  (Chain.setMintStateOf
                    { c with
                        verifiedBurns :=
                          aupdate c.verifiedBurns (i.asset_id, i.user, i.burn_nonce)
                            { verified with processed := true }
                        processedBurns :=
                          ainsert c.processedBurns (i.asset_id, i.burn_nonce, i.user)
                            { asset_id := i.asset_id
                              nonce := i.burn_nonce
                              user := i.user
                              amount := verified.amount
                              processed_at := i.now } }
                    p
                    { c.mintStateOf p with
                        processed_burns_count :=
                          u64SaturatingAdd (c.mintStateOf p).processed_burns_count 1
                        total_minted :=
                          u64SaturatingAdd (c.mintStateOf p).total_minted verified.amount },
                  { minted := verified.amount
                    event :=
                      { asset_id := i.asset_id
                        nonce := i.burn_nonce
                        user := i.user
                        amount := verified.amount }
                    fee_transfers := transfers })

/-! ## Merkle verification (`verification.rs`, `verification_new.rs`) -/

/-- The `BurnRecord` (`verification.rs`): the burn-record layout proven by the
Merkle proof, Borsh-serialized in `burn_record_data`. -/
structure BurnRecord where
  user : Pubkey
  amount : Nat
  nonce : Nat
  timestamp : Nat
  record_hash : Bytes
  bump : Nat
  deriving DecidableEq, Repr

/-- Borsh `BurnRecord::try_from_slice`: 32-byte user, three little-endian
`u64`s, 32-byte hash, one bump byte — exactly 89 bytes, no trailing data. -/
def parseBurnRecord (data : Bytes) : Option BurnRecord :=
  if data.length = 89 then
    some { user := data.take 32
           amount := u64FromLE ((data.drop 32).take 8)
           nonce := u64FromLE ((data.drop 40).take 8)
           timestamp := u64FromLE ((data.drop 48).take 8)
           record_hash := (data.drop 56).take 32
           bump := data.getD 88 0 }
  else none

/-- The legacy `BurnProof` consumed by `verification.rs` (the struct shape it
was written against is not among the provided sources — the current
`lib.rs` `BurnProof` has no `burn_record_data` — so the fields are
reconstructed from the accesses `verify_merkle_proof_internal` and
`verify_burn_record_data` make). -/
structure LegacyBurnProof where
  burn_nonce : Nat
  user : Pubkey
  amount : Nat
  state_root : Bytes
  merkle_proof : List Bytes
  burn_record_data : Bytes
  deriving DecidableEq, Repr

/-- The Merkle walk of `verify_merkle_proof_internal`: from the leaf hash,
combine with each sibling in **sorted** order,
`parent = keccak(min(a,b) || max(a,b))`. -/
def fold_merkle (k : Bytes → Bytes) (leaf : Bytes) (proof : List Bytes) : Bytes :=
  proof.foldl
    (fun cur sibling =>
      if leBytes cur sibling then k (cur ++ sibling) else k (sibling ++ cur))
    leaf

/-- The `verify_burn_record_data` (`verification.rs`): deserialize the proven
bytes and require user, amount and nonce to match the claims of the proof. -/
def verify_burn_record_data (proof : LegacyBurnProof) :
    Except LightClientError Unit :=
  match parseBurnRecord proof.burn_record_data with
  | none => .error .BurnRecordDeserializationFailed
  | some burn_record =>
    if ¬ (burn_record.user = proof.user) then .error .BurnRecordMismatch
    else if ¬ (burn_record.amount = proof.amount) then .error .BurnRecordMismatch
    else if ¬ (burn_record.nonce = proof.burn_nonce) then .error .BurnRecordMismatch
    else .ok ()

/-- The `verify_merkle_proof_internal` (`verification.rs`): ≤ 32 proof levels;
recompute the root from `keccak(burn_record_data)` by the sorted-pair walk;
require it to equal the claimed `state_root`; then validate the record data. -/
def verify_merkle_proof_internal (k : Bytes → Bytes) (proof : LegacyBurnProof) :
    Except LightClientError Bool :=
  if ¬ (proof.merkle_proof.length ≤ 32) then .error .InvalidMerkleProof
  else
    let leaf_hash := k proof.burn_record_data
    let current_hash := fold_merkle k leaf_hash proof.merkle_proof
    if ¬ (current_hash = proof.state_root) then .error .InvalidMerkleProof
    else
      match verify_burn_record_data proof with
      | .error e => .error e
      | .ok _ => .ok true

/-- The minimal `BurnProof` of the current `lib.rs`. -/
structure BurnProof where
  burn_nonce : Nat
  user : Pubkey
  amount : Nat
  slot : Nat
  block_hash : Bytes
  state_root : Bytes
  merkle_proof : List Bytes
  validator_count : Nat
  deriving DecidableEq, Repr

/-- The `verify_merkle_proof_minimal` (`verification_new.rs`): the live
alternative path checks only that the proof has at most 10 levels — it does
not recompute any root ("TODO: Full merkle verification"). -/
def verify_merkle_proof_minimal (proof : BurnProof) :
    Except LightClientError Unit :=
  if ¬ (proof.merkle_proof.length ≤ 10) then .error .InvalidMerkleProof
  else .ok ()

/-! ## Replay-guard PDA keys (for asset namespacing) -/

/-- The `declare_id!` of `xencat-mint-x1`. -/
def XENCAT_MINT_PROGRAM_ID : String := "8kmoPKtLAjjzQRN5i4emUsmWeu3LM5yPWFrsqZVyekhk"

/-- The `declare_id!` of `dgn-mint-x1`. -/
def DGN_MINT_PROGRAM_ID : String := "4YPipW8txxY3N7gHdj4NLhu8YxybHgarx5dJQCdCnQHs"

/-- A program-derived address is determined by the id of the deriving program and
the seed list (the runtime hashes these together; distinct inputs give
distinct addresses up to hash collisions). -/
structure PdaKey where
  program_id : String
  seeds : List Bytes
  deriving DecidableEq, Repr

/-- Seeds of the V3 replay-guard PDA
(`["processed_burn_v3", asset_id, burn_nonce, user]`, both mint programs). -/
def processed_burn_v3_seeds (asset_id : Nat) (burn_nonce : Nat)
    (user : Pubkey) : List Bytes :=
  [strBytes "processed_burn_v3", [asset_id % 256], u64LE burn_nonce, user]

/-- Seeds of the legacy replay-guard PDA of `mint_from_burn`
(`["processed_burn", burn_nonce]`, xencat program only). -/
def processed_burn_seeds (burn_nonce : Nat) : List Bytes :=
  [strBytes "processed_burn", u64LE burn_nonce]

/-- Replay key used by `xencat mint_from_burn_v3` (asset forced to 1). -/
def xencat_v3_replay_key (burn_nonce : Nat) (user : Pubkey) : PdaKey :=
  { program_id := XENCAT_MINT_PROGRAM_ID
    seeds := processed_burn_v3_seeds 1 burn_nonce user }

/-- Replay key used by `dgn mint_from_burn_v3` (asset forced to 2). -/
def dgn_v3_replay_key (burn_nonce : Nat) (user : Pubkey) : PdaKey :=
  { program_id := DGN_MINT_PROGRAM_ID
    seeds := processed_burn_v3_seeds 2 burn_nonce user }

/-- Replay key used by the legacy `xencat mint_from_burn`. -/
def xencat_legacy_replay_key (burn_nonce : Nat) : PdaKey :=
  { program_id := XENCAT_MINT_PROGRAM_ID
    seeds := processed_burn_seeds burn_nonce }

/-! ## Helper lemmas -/

theorem alookup_ainsert {α β : Type} [DecidableEq α] (l : List (α × β))
    (k k' : α) (v : β) :
    alookup (ainsert l k v) k' = if k' = k then some v else alookup l k' := rfl

theorem alookup_aupdate {α β : Type} [DecidableEq α] (l : List (α × β))
    (k k' : α) (v : β) :
    alookup (aupdate l k v) k' =
      if k' = k ∧ (alookup l k).isSome then some v else alookup l k' := by
  induction l with
  | nil => simp [aupdate, alookup]
  | cons hd tl ih =>
    obtain ⟨k0, v0⟩ := hd
    by_cases hk : k = k0
    · subst hk
      by_cases hk' : k' = k
      · subst hk'; simp [aupdate, alookup]
      · simp [aupdate, alookup, hk']
    · by_cases hk' : k' = k0
      · subst hk'
        simp [aupdate, alookup, hk, Ne.symm hk]
      · simp [aupdate, alookup, hk, hk', ih]

theorem setMintStateOf_validatorSet (c : Chain) (p : MintProgramId) (ms : MintState) :
    (c.setMintStateOf p ms).validatorSet = c.validatorSet := by
  cases p <;> rfl

theorem setMintStateOf_verifiedBurns (c : Chain) (p : MintProgramId) (ms : MintState) :
    (c.setMintStateOf p ms).verifiedBurns = c.verifiedBurns := by
  cases p <;> rfl

theorem setMintStateOf_verifiedBurnsV2 (c : Chain) (p : MintProgramId) (ms : MintState) :
    (c.setMintStateOf p ms).verifiedBurnsV2 = c.verifiedBurnsV2 := by
  cases p <;> rfl

theorem setMintStateOf_processedBurns (c : Chain) (p : MintProgramId) (ms : MintState) :
    (c.setMintStateOf p ms).processedBurns = c.processedBurns := by
  cases p <;> rfl

theorem setMintStateOf_processedBurnsLegacy (c : Chain) (p : MintProgramId) (ms : MintState) :
    (c.setMintStateOf p ms).processedBurnsLegacy = c.processedBurnsLegacy := by
  cases p <;> rfl

/-- Success inversion for `mint_from_burn_v3`: everything a successful mint
implies about the pre-state, the outcome and the post-state. -/
theorem mint_success_inv {p : MintProgramId} {c : Chain} {i : MintV3Input}
    {c' : Chain} {o : MintOutcome}
    (h : mint_from_burn_v3 p c i = .ok (c', o)) :
    ∃ verified : VerifiedBurnV3,
      alookup c.processedBurns (i.asset_id, i.burn_nonce, i.user) = none ∧
      i.user_token_account_owner = i.user ∧
      c.validatorSet.version = (c.mintStateOf p).validator_set_version ∧
      alookup c.verifiedBurns (i.asset_id, i.user, i.burn_nonce) = some verified ∧
      verified.processed = false ∧
      verified.user = i.user ∧
      verified.burn_nonce = i.burn_nonce ∧
      verified.asset_id = i.asset_id ∧
      i.asset_id = p.expectedAsset ∧
      (c.mintStateOf p).fee_per_validator * c.validatorSet.validators.length <
        18446744073709551616 ∧
      (if (c.mintStateOf p).fee_per_validator > 0 then
          distributeFees (c.mintStateOf p).fee_per_validator
            c.validatorSet.validators i.remaining_accounts
        else .ok []) = .ok o.fee_transfers ∧
      o.minted = verified.amount ∧
      o.event = { asset_id := i.asset_id, nonce := i.burn_nonce,
                  user := i.user, amount := verified.amount } ∧
      c'.validatorSet = c.validatorSet ∧
      c'.verifiedBurns =
        aupdate c.verifiedBurns (i.asset_id, i.user, i.burn_nonce)
          { verified with processed := true } ∧
      c'.processedBurns =
        ainsert c.processedBurns (i.asset_id, i.burn_nonce, i.user)
          { asset_id := i.asset_id, nonce := i.burn_nonce, user := i.user,
            amount := verified.amount, processed_at := i.now } ∧
      c'.verifiedBurnsV2 = c.verifiedBurnsV2 ∧
      c'.processedBurnsLegacy = c.processedBurnsLegacy ∧
      c'.mintStateOf p =
        { c.mintStateOf p with
            processed_burns_count :=
              u64SaturatingAdd (c.mintStateOf p).processed_burns_count 1
            total_minted :=
              u64SaturatingAdd (c.mintStateOf p).total_minted verified.amount } := by
  unfold mint_from_burn_v3 at h
  by_cases hguard : (alookup c.processedBurns (i.asset_id, i.burn_nonce, i.user)).isSome
  · rw [if_pos hguard] at h; exact Except.noConfusion h
  rw [if_neg hguard] at h
  by_cases howner : ¬ (i.user_token_account_owner = i.user)
  · rw [if_pos howner] at h; exact Except.noConfusion h
  rw [if_neg howner] at h
  by_cases hver : ¬ (c.validatorSet.version = (c.mintStateOf p).validator_set_version)
  · rw [if_pos hver] at h; exact Except.noConfusion h
  rw [if_neg hver] at h
  cases hlook : alookup c.verifiedBurns (i.asset_id, i.user, i.burn_nonce) with
  | none => rw [hlook] at h; exact Except.noConfusion h
  | some verified =>
  simp only [hlook] at h
  by_cases hproc : verified.processed
  · rw [if_pos hproc] at h; exact Except.noConfusion h
  rw [if_neg hproc] at h
  by_cases huser : ¬ (verified.user = i.user)
  · rw [if_pos huser] at h; exact Except.noConfusion h
  rw [if_neg huser] at h
  by_cases hnonce : ¬ (verified.burn_nonce = i.burn_nonce)
  · rw [if_pos hnonce] at h; exact Except.noConfusion h
  rw [if_neg hnonce] at h
  by_cases hasset : ¬ (verified.asset_id = i.asset_id)
  · rw [if_pos hasset] at h; exact Except.noConfusion h
  rw [if_neg hasset] at h
  by_cases hexp : ¬ (i.asset_id = p.expectedAsset)
  · rw [if_pos hexp] at h; exact Except.noConfusion h
  rw [if_neg hexp] at h
  cases hfrom : Asset.from_u8 i.asset_id with
  | error e => simp only [hfrom] at h; exact Except.noConfusion h
  | ok asset =>
  simp only [hfrom] at h
  by_cases henum : ¬ (asset = p.expectedAssetEnum)
  · rw [if_pos henum] at h; exact Except.noConfusion h
  rw [if_neg henum] at h
  cases hmul : u64CheckedMul (c.mintStateOf p).fee_per_validator
      c.validatorSet.validators.length with
  | none => simp only [hmul] at h; exact Except.noConfusion h
  | some total_fee =>
  simp only [hmul] at h
  cases hfees : (if (c.mintStateOf p).fee_per_validator > 0 then
      distributeFees (c.mintStateOf p).fee_per_validator c.validatorSet.validators
        i.remaining_accounts
    else .ok []) with
  | error e => simp only [hfees] at h; exact Except.noConfusion h
  | ok transfers =>
  simp only [hfees] at h
  rw [Except.ok.injEq, Prod.mk.injEq] at h
  obtain ⟨hc', ho⟩ := h
  subst hc'
  subst ho
  refine ⟨verified, by simpa using hguard, not_not.mp howner, not_not.mp hver,
    rfl, by simpa using hproc, not_not.mp huser, not_not.mp hnonce,
    not_not.mp hasset, not_not.mp hexp, ?_, rfl, rfl, rfl, ?_, ?_, ?_, ?_, ?_, ?_⟩
  · simp only [u64CheckedMul] at hmul
    split at hmul
    · assumption
    · exact Option.noConfusion hmul
  · rw [setMintStateOf_validatorSet]
  · rw [setMintStateOf_verifiedBurns]
  · rw [setMintStateOf_processedBurns]
  · rw [setMintStateOf_verifiedBurnsV2]
  · rw [setMintStateOf_processedBurnsLegacy]
  · cases p <;> rfl

/-- The replay guard fires first: whenever the `ProcessedBurnV3` PDA for the
requested `(asset_id, burn_nonce, user)` key already exists, `init` fails
with the account-in-use error before anything else is examined. -/
theorem mint_replay_guard (p : MintProgramId) (c : Chain) (i : MintV3Input)
    (h : (alookup c.processedBurns (i.asset_id, i.burn_nonce, i.user)).isSome) :
    mint_from_burn_v3 p c i = .error .AccountAlreadyInUse := by
  unfold mint_from_burn_v3
  rw [if_pos h]

theorem countAttestations_ok_length
    {verify : Pubkey → Bytes → Bytes → Except LightClientError Unit}
    {roster : List Pubkey} {message : Bytes} {seen : List Pubkey}
    {l : List ValidatorAttestation} {n : Nat}
    (h : countAttestations verify roster message seen l = .ok n) :
    n = l.length := by
  induction l generalizing seen n with
  | nil => simp only [countAttestations, Except.ok.injEq] at h; simpa using h.symm
  | cons a rest ih =>
    simp only [countAttestations] at h
    split at h
    · exact Except.noConfusion h
    split at h
    · split at h
      · split at h
        next m hm =>
          rw [Except.ok.injEq] at h
          have := ih hm
          simp [← h, this]
        · exact Except.noConfusion h
      · exact Except.noConfusion h
    · exact Except.noConfusion h

theorem countAttestations_ok_mem
    {verify : Pubkey → Bytes → Bytes → Except LightClientError Unit}
    {roster : List Pubkey} {message : Bytes} {seen : List Pubkey}
    {l : List ValidatorAttestation} {n : Nat}
    (h : countAttestations verify roster message seen l = .ok n) :
    ∀ a ∈ l, a.validator_pubkey ∈ roster := by
  induction l generalizing seen n with
  | nil => simp
  | cons a rest ih =>
    simp only [countAttestations] at h
    split at h
    · exact Except.noConfusion h
    next hseen =>
    split at h
    next hmem =>
      split at h
      · split at h
        next m hm =>
          intro b hb
          rcases List.mem_cons.mp hb with hb | hb
          · rw [hb]; exact hmem
          · exact ih hm b hb
        · exact Except.noConfusion h
      · exact Except.noConfusion h
    · exact Except.noConfusion h

theorem countAttestations_ok_nodup
    {verify : Pubkey → Bytes → Bytes → Except LightClientError Unit}
    {roster : List Pubkey} {message : Bytes} {seen : List Pubkey}
    {l : List ValidatorAttestation} {n : Nat}
    (h : countAttestations verify roster message seen l = .ok n) :
    (l.map (fun a => a.validator_pubkey)).Nodup ∧
      ∀ a ∈ l, a.validator_pubkey ∉ seen := by
  induction l generalizing seen n with
  | nil => simp
  | cons a rest ih =>
    simp only [countAttestations] at h
    split at h
    · exact Except.noConfusion h
    next hseen =>
    split at h
    · split at h
      · split at h
        next m hm =>
          obtain ⟨hnd, hout⟩ := ih hm
          constructor
          · refine List.nodup_cons.mpr ⟨?_, hnd⟩
            intro hcontra
            obtain ⟨b, hb, hbeq⟩ := List.mem_map.mp hcontra
            exact (hout b hb) (by rw [hbeq]; exact List.mem_cons_self _ _)
          · intro b hb
            rcases List.mem_cons.mp hb with hb | hb
            · rw [hb]; exact hseen
            · intro hbs
              exact (hout b hb) (List.mem_cons_of_mem _ hbs)
        · exact Except.noConfusion h
      · exact Except.noConfusion h
    · exact Except.noConfusion h

theorem countApprovers_ok_length
    {current_validators : List Pubkey} {message : Bytes} {seen : List Pubkey}
    {l : List ValidatorUpdateSignature} {n : Nat}
    (h : countApprovers current_validators message seen l = .ok n) :
    n = l.length := by
  induction l generalizing seen n with
  | nil => simp only [countApprovers, Except.ok.injEq] at h; simpa using h.symm
  | cons s rest ih =>
    simp only [countApprovers] at h
    split at h
    · exact Except.noConfusion h
    split at h
    · split at h
      · split at h
        next m hm =>
          rw [Except.ok.injEq] at h
          have := ih hm
          simp [← h, this]
        · exact Except.noConfusion h
      · exact Except.noConfusion h
    · exact Except.noConfusion h

theorem countApprovers_ok_mem
    {current_validators : List Pubkey} {message : Bytes} {seen : List Pubkey}
    {l : List ValidatorUpdateSignature} {n : Nat}
    (h : countApprovers current_validators message seen l = .ok n) :
    ∀ s ∈ l, s.validator_pubkey ∈ current_validators := by
  induction l generalizing seen n with
  | nil => simp
  | cons s rest ih =>
    simp only [countApprovers] at h
    split at h
    · exact Except.noConfusion h
    next hseen =>
    split at h
    next hmem =>
      split at h
      · split at h
        next m hm =>
          intro b hb
          rcases List.mem_cons.mp hb with hb | hb
          · rw [hb]; exact hmem
          · exact ih hm b hb
        · exact Except.noConfusion h
      · exact Except.noConfusion h
    · exact Except.noConfusion h

theorem countApprovers_ok_nodup
    {current_validators : List Pubkey} {message : Bytes} {seen : List Pubkey}
    {l : List ValidatorUpdateSignature} {n : Nat}
    (h : countApprovers current_validators message seen l = .ok n) :
    (l.map (fun s => s.validator_pubkey)).Nodup ∧
      ∀ s ∈ l, s.validator_pubkey ∉ seen := by
  induction l generalizing seen n with
  | nil => simp
  | cons s rest ih =>
    simp only [countApprovers] at h
    split at h
    · exact Except.noConfusion h
    next hseen =>
    split at h
    · split at h
      · split at h
        next m hm =>
          obtain ⟨hnd, hout⟩ := ih hm
          constructor
          · refine List.nodup_cons.mpr ⟨?_, hnd⟩
            intro hcontra
            obtain ⟨b, hb, hbeq⟩ := List.mem_map.mp hcontra
            exact (hout b hb) (by rw [hbeq]; exact List.mem_cons_self _ _)
          · intro b hb
            rcases List.mem_cons.mp hb with hb | hb
            · rw [hb]; exact hseen
            · intro hbs
              exact (hout b hb) (List.mem_cons_of_mem _ hbs)
        · exact Except.noConfusion h
      · exact Except.noConfusion h
    · exact Except.noConfusion h

/-- Success inversion for `submit_burn_attestation_v3`. -/
theorem submitV3_success_inv {h : Bytes → Bytes} {c : Chain} {i : SubmitV3Input}
    {c' : Chain} (hs : submit_burn_attestation_v3 h c i = .ok c') :
    alookup c.verifiedBurns (i.asset_id, i.signer, i.burn_nonce) = none ∧
    i.attestation.asset_id = i.asset_id ∧
    i.attestation.burn_nonce = i.burn_nonce ∧
    (∃ a, Asset.from_u8 i.attestation.asset_id = .ok a) ∧
    i.attestation.validator_set_version = c.validatorSet.version ∧
    (∃ n, countAttestations verify_ed25519_signature_v3 c.validatorSet.validators
        (create_attestation_message_v3 h i.attestation.asset_id
          i.attestation.burn_nonce i.attestation.user i.attestation.amount
          i.attestation.validator_set_version)
        [] i.attestation.attestations = .ok n ∧
      c.validatorSet.threshold ≤ n) ∧
    c' = { c with
            verifiedBurns :=
              ainsert c.verifiedBurns (i.asset_id, i.signer, i.burn_nonce)
                { asset_id := i.attestation.asset_id
                  burn_nonce := i.attestation.burn_nonce
                  user := i.signer
                  amount := i.attestation.amount
                  verified_at := i.now
                  processed := false
                  bump := 0 } } := by
  unfold submit_burn_attestation_v3 at hs
  by_cases hguard : (alookup c.verifiedBurns (i.asset_id, i.signer, i.burn_nonce)).isSome
  · rw [if_pos hguard] at hs; exact Except.noConfusion hs
  rw [if_neg hguard] at hs
  by_cases ha : ¬ (i.attestation.asset_id = i.asset_id)
  · rw [if_pos ha] at hs; exact Except.noConfusion hs
  rw [if_neg ha] at hs
  by_cases hn : ¬ (i.attestation.burn_nonce = i.burn_nonce)
  · rw [if_pos hn] at hs; exact Except.noConfusion hs
  rw [if_neg hn] at hs
  cases hfrom : Asset.from_u8 i.attestation.asset_id with
  | error e => simp only [hfrom] at hs; exact Except.noConfusion hs
  | ok asset =>
  simp only [hfrom] at hs
  by_cases hv : ¬ (i.attestation.validator_set_version = c.validatorSet.version)
  · rw [if_pos hv] at hs; exact Except.noConfusion hs
  rw [if_neg hv] at hs
  cases hcount : countAttestations verify_ed25519_signature_v3 c.validatorSet.validators
      (create_attestation_message_v3 h i.attestation.asset_id
        i.attestation.burn_nonce i.attestation.user i.attestation.amount
        i.attestation.validator_set_version)
      [] i.attestation.attestations with
  | error e => simp only [hcount] at hs; exact Except.noConfusion hs
  | ok valid_count =>
  simp only [hcount] at hs
  by_cases ht : valid_count < c.validatorSet.threshold
  · rw [if_pos ht] at hs; exact Except.noConfusion hs
  rw [if_neg ht] at hs
  rw [Except.ok.injEq] at hs
  exact ⟨by simpa using hguard, not_not.mp ha, not_not.mp hn, ⟨asset, rfl⟩,
    not_not.mp hv, ⟨valid_count, rfl, Nat.le_of_not_lt ht⟩, hs.symm⟩


/-- Success inversion for the V2 `submit_burn_attestation`. -/
theorem submitV2_success_inv {h : Bytes → Bytes} {c : Chain} {i : SubmitV2Input}
    {c' : Chain} (hs : submit_burn_attestation h c i = .ok c') :
    alookup c.verifiedBurnsV2 (i.signer, i.attestation.burn_nonce) = none ∧
    i.attestation.validator_set_version = c.validatorSet.version ∧
    c' = { c with
            verifiedBurnsV2 :=
              ainsert c.verifiedBurnsV2 (i.signer, i.attestation.burn_nonce)
                { burn_nonce := i.attestation.burn_nonce
                  user := i.signer
                  amount := i.attestation.amount
                  verified_at := i.now
                  processed := false
                  bump := 0 } } := by
  unfold submit_burn_attestation at hs
  by_cases hguard : (alookup c.verifiedBurnsV2 (i.signer, i.attestation.burn_nonce)).isSome
  · rw [if_pos hguard] at hs; exact Except.noConfusion hs
  rw [if_neg hguard] at hs
  by_cases hv : ¬ (i.attestation.validator_set_version = c.validatorSet.version)
  · rw [if_pos hv] at hs; exact Except.noConfusion hs
  rw [if_neg hv] at hs
  cases hcount : countAttestations verify_ed25519_signature_v2 c.validatorSet.validators
      (create_attestation_message h i.attestation.burn_nonce
        i.attestation.user i.attestation.amount i.attestation.validator_set_version)
      [] i.attestation.attestations with
  | error e => simp only [hcount] at hs; exact Except.noConfusion hs
  | ok valid_count =>
  simp only [hcount] at hs
  by_cases ht : valid_count < c.validatorSet.threshold
  · rw [if_pos ht] at hs; exact Except.noConfusion hs
  rw [if_neg ht] at hs
  rw [Except.ok.injEq] at hs
  exact ⟨by simpa using hguard, not_not.mp hv, hs.symm⟩

/-- Success inversion for `verify_update_signatures`. -/
theorem verify_update_signatures_ok_inv {h : Bytes → Bytes}
    {params : UpdateValidatorSetParams} {current_validators : List Pubkey}
    {current_threshold current_version : Nat}
    (hv : verify_update_signatures h params current_validators
      current_threshold current_version = .ok ()) :
    params.approver_signatures ≠ [] ∧
    current_threshold ≤ params.approver_signatures.length ∧
    ∃ n, countApprovers current_validators
        (create_update_message h current_version params.new_validators
          params.new_threshold)
        [] params.approver_signatures = .ok n ∧
      current_threshold ≤ n := by
  unfold verify_update_signatures at hv
  by_cases h1 : params.approver_signatures.isEmpty
  · rw [if_pos h1] at hv; exact Except.noConfusion hv
  rw [if_neg h1] at hv
  by_cases h2 : params.approver_signatures.length < current_threshold
  · rw [if_pos h2] at hv; exact Except.noConfusion hv
  rw [if_neg h2] at hv
  cases hcount : countApprovers current_validators
      (create_update_message h current_version params.new_validators
        params.new_threshold)
      [] params.approver_signatures with
  | error e => simp only [hcount] at hv; exact Except.noConfusion hv
  | ok verified_count =>
  simp only [hcount] at hv
  by_cases ht : verified_count < current_threshold
  · rw [if_pos ht] at hv; exact Except.noConfusion hv
  exact ⟨by simpa [List.isEmpty_iff] using h1, Nat.le_of_not_lt h2,
    verified_count, rfl, Nat.le_of_not_lt ht⟩

/-- Success inversion for `update_validator_set`. -/
theorem update_success_inv {h : Bytes → Bytes} {c : Chain}
    {params : UpdateValidatorSetParams} {c' : Chain}
    (hu : update_validator_set h c params = .ok c') :
    params.new_threshold ≤ params.new_validators.length ∧
    0 < params.new_threshold ∧
    params.new_validators ≠ [] ∧
    params.approver_signatures ≠ [] ∧
    c.validatorSet.threshold ≤ params.approver_signatures.length ∧
    (∃ n, countApprovers c.validatorSet.validators
        (create_update_message h c.validatorSet.version params.new_validators
          params.new_threshold)
        [] params.approver_signatures = .ok n ∧
      c.validatorSet.threshold ≤ n) ∧
    c.validatorSet.version + 1 < 18446744073709551616 ∧
    c' = { c with validatorSet :=
      { c.validatorSet with
          validators := params.new_validators
          threshold := params.new_threshold
          version := c.validatorSet.version + 1 } } := by
  unfold update_validator_set at hu
  by_cases h1 : params.new_validators.length < params.new_threshold
  · rw [if_pos h1] at hu; exact Except.noConfusion hu
  rw [if_neg h1] at hu
  by_cases h2 : ¬ (params.new_threshold > 0)
  · rw [if_pos h2] at hu; exact Except.noConfusion hu
  rw [if_neg h2] at hu
  by_cases h3 : params.new_validators.isEmpty
  · rw [if_pos h3] at hu; exact Except.noConfusion hu
  rw [if_neg h3] at hu
  cases hvs : verify_update_signatures h params c.validatorSet.validators
      c.validatorSet.threshold c.validatorSet.version with
  | error e => simp only [hvs] at hu; exact Except.noConfusion hu
  | ok u =>
  cases u
  simp only [hvs] at hu
  cases hadd : u64CheckedAdd c.validatorSet.version 1 with
  | none => simp only [hadd] at hu; exact Except.noConfusion hu
  | some new_version =>
  simp only [hadd] at hu
  rw [Except.ok.injEq] at hu
  obtain ⟨hne, hle, n, hcount, hn⟩ := verify_update_signatures_ok_inv hvs
  have hbound : c.validatorSet.version + 1 < 18446744073709551616 ∧
      new_version = c.validatorSet.version + 1 := by
    simp only [u64CheckedAdd] at hadd
    split at hadd
    · exact ⟨by assumption, (Option.some.injEq _ _ ▸ hadd).symm⟩
    · exact Option.noConfusion hadd
  refine ⟨Nat.le_of_not_lt h1, not_not.mp (by simpa using h2),
    by simpa [List.isEmpty_iff] using h3, hne, hle, ⟨n, hcount, hn⟩,
    hbound.1, ?_⟩
  rw [← hu, hbound.2]

/-! ## Operation step relation -/

/-- One ledger transition: any of the modelled instructions executing
successfully (failed transactions change nothing). -/
inductive ChainStep : Chain → Chain → Prop where
  | mint {c c' : Chain} {p : MintProgramId} {i : MintV3Input} {o : MintOutcome}
      (hm : mint_from_burn_v3 p c i = .ok (c', o)) : ChainStep c c'
  | submitV3 {c c' : Chain} {h : Bytes → Bytes} {i : SubmitV3Input}
      (hs : submit_burn_attestation_v3 h c i = .ok c') : ChainStep c c'
  | submitV2 {c c' : Chain} {h : Bytes → Bytes} {i : SubmitV2Input}
      (hs : submit_burn_attestation h c i = .ok c') : ChainStep c c'
  | update {c c' : Chain} {h : Bytes → Bytes} {params : UpdateValidatorSetParams}
      (hu : update_validator_set h c params = .ok c') : ChainStep c c'

/-- Any interleaving of the modelled operations. -/
def ChainReach : Chain → Chain → Prop := Relation.ReflTransGen ChainStep

/-- No operation ever deletes a `ProcessedBurnV3` record. -/
theorem step_preserves_processed {c c' : Chain} (hstep : ChainStep c c')
    {k : PKey} {v : ProcessedBurnV3}
    (hk : alookup c.processedBurns k = some v) :
    alookup c'.processedBurns k = some v := by
  cases hstep with
  | mint hm =>
    obtain ⟨verified, hguard, -, -, -, -, -, -, -, -, -, -, -, -, -, -, hproc, -, -, -⟩ :=
      mint_success_inv hm
    rw [hproc, alookup_ainsert]
    split
    next heq =>
      rw [heq] at hk
      rw [hk] at hguard
      exact Option.noConfusion hguard
    · exact hk
  | submitV3 hs =>
    obtain ⟨-, -, -, -, -, -, hc'⟩ := submitV3_success_inv hs
    rw [hc']
    exact hk
  | submitV2 hs =>
    obtain ⟨-, -, hc'⟩ := submitV2_success_inv hs
    rw [hc']
    exact hk
  | update hu =>
    obtain ⟨-, -, -, -, -, -, -, hc'⟩ := update_success_inv hu
    rw [hc']
    exact hk

/-- The `ProcessedBurnV3` records persist across any reachable future state. -/
theorem reach_preserves_processed {c c' : Chain} (hreach : ChainReach c c')
    {k : PKey} {v : ProcessedBurnV3}
    (hk : alookup c.processedBurns k = some v) :
    alookup c'.processedBurns k = some v := by
  induction hreach with
  | refl => exact hk
  | tail hsteps hstep ih => exact step_preserves_processed hstep ih

/-! ## C1 -/

/-- C1: for every key `(asset_id, user, burn_nonce)`, at most one
`mint_from_burn_v3` call ever succeeds.  A successful mint finds the
`VerifiedBurnV3` record unprocessed and flips it to processed, finds no
`ProcessedBurnV3` record at the key and creates it; and in every state
reachable afterwards by any sequence of operations, a mint call for the
identical key (in either mint program) fails with the replay error raised by
the create-once guard (`AccountAlreadyInUse`, the record already exists) —
the failing call returns no outcome, so no tokens are minted. -/
theorem C1_mint_exactly_once (p p' : MintProgramId) (c c' c'' : Chain)
    (i i' : MintV3Input) (o : MintOutcome)
    (hsucc : mint_from_burn_v3 p c i = .ok (c', o))
    (hreach : ChainReach c' c'')
    (hkey : i'.asset_id = i.asset_id ∧ i'.burn_nonce = i.burn_nonce ∧
      i'.user = i.user) :
    (∃ verified : VerifiedBurnV3,
      alookup c.verifiedBurns (i.asset_id, i.user, i.burn_nonce) = some verified ∧
      verified.processed = false ∧
      alookup c'.verifiedBurns (i.asset_id, i.user, i.burn_nonce) =
        some { verified with processed := true } ∧
      alookup c.processedBurns (i.asset_id, i.burn_nonce, i.user) = none ∧
      alookup c'.processedBurns (i.asset_id, i.burn_nonce, i.user) =
        some { asset_id := i.asset_id, nonce := i.burn_nonce, user := i.user,
               amount := verified.amount, processed_at := i.now }) ∧
    mint_from_burn_v3 p' c'' i' = .error .AccountAlreadyInUse := by
  obtain ⟨verified, hguard, -, -, hlook, hproc0, -, -, -, -, -, -, -, -, -, hvb,
    hpb, -, -, -⟩ := mint_success_inv hsucc
  have hpost : alookup c'.processedBurns (i.asset_id, i.burn_nonce, i.user) =
      some { asset_id := i.asset_id, nonce := i.burn_nonce, user := i.user,
             amount := verified.amount, processed_at := i.now } := by
    rw [hpb, alookup_ainsert, if_pos rfl]
  refine ⟨⟨verified, hlook, hproc0, ?_, hguard, hpost⟩, ?_⟩
  · rw [hvb, alookup_aupdate, if_pos ⟨rfl, by rw [hlook]; rfl⟩]
  · have hkeep := reach_preserves_processed hreach hpost
    apply mint_replay_guard
    rw [hkey.1, hkey.2.1, hkey.2.2, hkeep]
    rfl

/-! ## Concrete sample data (for evaluating the theorems on closed inputs) -/

/-- A 32-byte public key whose bytes all equal `n`. -/
def pkOf (n : Nat) : Pubkey := List.replicate 32 n

def sampleMintState : MintState :=
  { authority := pkOf 9, token_mint := pkOf 8, fee_per_validator := 0,
    light_client_program := pkOf 7, validator_set_version := 1,
    processed_burns_count := 0, total_minted := 0, bump := 0 }

def sampleVerified : VerifiedBurnV3 :=
  { asset_id := 1, burn_nonce := 7, user := pkOf 5, amount := 1000,
    verified_at := 0, processed := false, bump := 0 }

/-- Genesis-like state: roster `[pkOf 1]` at version 1, threshold 1, one
unprocessed verified burn for `(asset 1, pkOf 5, nonce 7)`. -/
def sampleChain : Chain :=
  { validatorSet := { version := 1, validators := [pkOf 1], threshold := 1, bump := 0 }
    xencatMintState := sampleMintState
    dgnMintState := sampleMintState
    verifiedBurns := [((1, pkOf 5, 7), sampleVerified)]
    verifiedBurnsV2 := []
    processedBurns := []
    processedBurnsLegacy := [] }

def sampleMintInput : MintV3Input :=
  { burn_nonce := 7, asset_id := 1, user := pkOf 5,
    user_token_account_owner := pkOf 5, remaining_accounts := [], now := 0 }

/-- The state `sampleChain` reaches after `sampleMintInput` is minted. -/
def samplePostChain : Chain :=
  { sampleChain with
      verifiedBurns := [((1, pkOf 5, 7), { sampleVerified with processed := true })]
      processedBurns := [((1, 7, pkOf 5),
        { asset_id := 1, nonce := 7, user := pkOf 5, amount := 1000, processed_at := 0 })]
      xencatMintState :=
        { sampleMintState with processed_burns_count := 1, total_minted := 1000 } }

def sampleOutcome : MintOutcome :=
  { minted := 1000
    event := { asset_id := 1, nonce := 7, user := pkOf 5, amount := 1000 }
    fee_transfers := [] }

/-- C1 at a concrete input: the first mint succeeds, the identical repeat
call fails with the replay error. -/
theorem C1_mint_exactly_once_witness :
    mint_from_burn_v3 .xencat sampleChain sampleMintInput =
      .ok (samplePostChain, sampleOutcome) ∧
    mint_from_burn_v3 .xencat samplePostChain sampleMintInput =
      .error .AccountAlreadyInUse :=
  ⟨rfl,
    (C1_mint_exactly_once .xencat .xencat sampleChain samplePostChain
      samplePostChain sampleMintInput sampleMintInput sampleOutcome rfl
      Relation.ReflTransGen.refl ⟨rfl, rfl, rfl⟩).2⟩

/-! ## C2 -/

/-- C2: for every successful `mint_from_burn_v3` (either program), the minted
amount, the amount stored in the `ProcessedBurnV3` record and the amount in
the emitted event all equal the `amount` of the `VerifiedBurnV3` record read
from the pre-state; and any other successful mint call on the same state for
the same key — whatever its caller-supplied accounts and arguments — mints
the same amount, so no caller input can change it. -/
theorem C2_mint_amount_from_verified_record (p : MintProgramId) (c c' : Chain)
    (i : MintV3Input) (o : MintOutcome)
    (hsucc : mint_from_burn_v3 p c i = .ok (c', o)) :
    (∃ verified : VerifiedBurnV3,
      alookup c.verifiedBurns (i.asset_id, i.user, i.burn_nonce) = some verified ∧
      o.minted = verified.amount ∧
      o.event.amount = verified.amount ∧
      alookup c'.processedBurns (i.asset_id, i.burn_nonce, i.user) =
        some { asset_id := i.asset_id, nonce := i.burn_nonce, user := i.user,
               amount := verified.amount, processed_at := i.now }) ∧
    (∀ (p₂ : MintProgramId) (c₂ : Chain) (i₂ : MintV3Input) (o₂ : MintOutcome),
      i₂.asset_id = i.asset_id → i₂.user = i.user → i₂.burn_nonce = i.burn_nonce →
      mint_from_burn_v3 p₂ c i₂ = .ok (c₂, o₂) → o₂.minted = o.minted) := by
  obtain ⟨verified, -, -, -, hlook, -, -, -, -, -, -, -, hminted, hevent, -, -,
    hpb, -, -, -⟩ := mint_success_inv hsucc
  constructor
  · refine ⟨verified, hlook, hminted, by rw [hevent], ?_⟩
    rw [hpb, alookup_ainsert, if_pos rfl]
  · intro p₂ c₂ i₂ o₂ ha hu hn h₂
    obtain ⟨v₂, -, -, -, hlook₂, -, -, -, -, -, -, -, hminted₂, -, -, -, -, -,
      -, -⟩ := mint_success_inv h₂
    rw [ha, hu, hn, hlook] at hlook₂
    rw [hminted₂, hminted, Option.some.injEq] at *
    rw [hlook₂]

/-- C2 at a concrete input. -/
theorem C2_mint_amount_witness :
    mint_from_burn_v3 .xencat sampleChain sampleMintInput =
      .ok (samplePostChain, sampleOutcome) ∧
    ((∃ verified : VerifiedBurnV3,
      alookup sampleChain.verifiedBurns
        (sampleMintInput.asset_id, sampleMintInput.user, sampleMintInput.burn_nonce) =
          some verified ∧
      sampleOutcome.minted = verified.amount ∧
      sampleOutcome.event.amount = verified.amount ∧
      alookup samplePostChain.processedBurns
        (sampleMintInput.asset_id, sampleMintInput.burn_nonce, sampleMintInput.user) =
        some { asset_id := sampleMintInput.asset_id, nonce := sampleMintInput.burn_nonce,
               user := sampleMintInput.user, amount := verified.amount,
               processed_at := sampleMintInput.now }) ∧
    (∀ (p₂ : MintProgramId) (c₂ : Chain) (i₂ : MintV3Input) (o₂ : MintOutcome),
      i₂.asset_id = sampleMintInput.asset_id → i₂.user = sampleMintInput.user →
      i₂.burn_nonce = sampleMintInput.burn_nonce →
      mint_from_burn_v3 p₂ sampleChain i₂ = .ok (c₂, o₂) →
      o₂.minted = sampleOutcome.minted)) :=
  ⟨rfl, C2_mint_amount_from_verified_record .xencat sampleChain samplePostChain
    sampleMintInput sampleOutcome rfl⟩

/-! ## C3 -/

/-- C3: `submit_burn_attestation_v3` succeeds only if the request's
`validator_set_version` equals the current `X1ValidatorSet.version`, no
validator key appears twice in the batch, every attesting key is in the
current roster, and the number of accepted attestations (equal to the batch
length, since every attestation must pass) is at least the threshold; on
success it stores a `VerifiedBurnV3` carrying the asset id of the request, nonce,
requesting user and amount with `processed = false`. -/
theorem C3_submit_attestation_v3 (h : Bytes → Bytes) (c : Chain)
    (i : SubmitV3Input) (c' : Chain)
    (hs : submit_burn_attestation_v3 h c i = .ok c') :
    i.attestation.validator_set_version = c.validatorSet.version ∧
    (i.attestation.attestations.map (fun a => a.validator_pubkey)).Nodup ∧
    (∀ a ∈ i.attestation.attestations,
      a.validator_pubkey ∈ c.validatorSet.validators) ∧
    c.validatorSet.threshold ≤ i.attestation.attestations.length ∧
    alookup c'.verifiedBurns (i.asset_id, i.signer, i.burn_nonce) =
      some { asset_id := i.asset_id, burn_nonce := i.burn_nonce,
             user := i.signer, amount := i.attestation.amount,
             verified_at := i.now, processed := false, bump := 0 } := by
  obtain ⟨-, ha, hn, -, hv, ⟨n, hcount, hthr⟩, hc'⟩ := submitV3_success_inv hs
  refine ⟨hv, (countAttestations_ok_nodup hcount).1,
    countAttestations_ok_mem hcount, ?_, ?_⟩
  · rw [← countAttestations_ok_length hcount]
    exact hthr
  · rw [hc']
    show alookup (ainsert _ _ _) _ = _
    rw [alookup_ainsert, if_pos rfl, ha, hn]

def sampleAttestationV3 : BurnAttestationDataV3 :=
  { asset_id := 1, burn_nonce := 7, user := pkOf 5, amount := 1000,
    validator_set_version := 1,
    attestations := [{ validator_pubkey := pkOf 1,
                       signature := List.replicate 64 0, timestamp := 0 }] }

def sampleSubmitInput : SubmitV3Input :=
  { asset_id := 1, burn_nonce := 7, signer := pkOf 5,
    attestation := sampleAttestationV3, now := 0 }

/-- The `sampleChain` without the pre-verified burn record. -/
def emptyChain : Chain := { sampleChain with verifiedBurns := [] }

/-- C3 at a concrete input (a one-validator roster accepting one
attestation and creating the record; the hash is instantiated with the
identity function). -/
theorem C3_submit_attestation_v3_witness :
    submit_burn_attestation_v3 (fun b => b) emptyChain sampleSubmitInput =
      .ok sampleChain ∧
    (sampleSubmitInput.attestation.validator_set_version =
      emptyChain.validatorSet.version ∧
    (sampleSubmitInput.attestation.attestations.map
      (fun a => a.validator_pubkey)).Nodup ∧
    (∀ a ∈ sampleSubmitInput.attestation.attestations,
      a.validator_pubkey ∈ emptyChain.validatorSet.validators) ∧
    emptyChain.validatorSet.threshold ≤
      sampleSubmitInput.attestation.attestations.length ∧
    alookup sampleChain.verifiedBurns
      (sampleSubmitInput.asset_id, sampleSubmitInput.signer,
        sampleSubmitInput.burn_nonce) =
      some { asset_id := sampleSubmitInput.asset_id,
             burn_nonce := sampleSubmitInput.burn_nonce,
             user := sampleSubmitInput.signer,
             amount := sampleSubmitInput.attestation.amount,
             verified_at := sampleSubmitInput.now, processed := false,
             bump := 0 }) :=
  ⟨rfl, C3_submit_attestation_v3 (fun b => b) emptyChain sampleSubmitInput
    sampleChain rfl⟩

/-! ## C4 -/

/-- Injectivity of the pre-hash byte encoding of
`create_attestation_message_v3`: within `u8`/`u64` ranges and with 32-byte
user keys, equal encodings force equal fields. -/
theorem attestation_data_v3_inj {a₁ a₂ v₁ v₂ n₁ n₂ m₁ m₂ : Nat} {u₁ u₂ : Pubkey}
    (ha₁ : a₁ < 256) (ha₂ : a₂ < 256)
    (hv₁ : v₁ < 18446744073709551616) (hv₂ : v₂ < 18446744073709551616)
    (hn₁ : n₁ < 18446744073709551616) (hn₂ : n₂ < 18446744073709551616)
    (hm₁ : m₁ < 18446744073709551616) (hm₂ : m₂ < 18446744073709551616)
    (hu₁ : u₁.length = 32) (hu₂ : u₂.length = 32)
    (heq : strBytes DOMAIN_SEPARATOR ++ [a₁ % 256] ++ u64LE v₁ ++ u64LE n₁
        ++ u64LE m₁ ++ u₁ =
      strBytes DOMAIN_SEPARATOR ++ [a₂ % 256] ++ u64LE v₂ ++ u64LE n₂
        ++ u64LE m₂ ++ u₂) :
    a₁ = a₂ ∧ v₁ = v₂ ∧ n₁ = n₂ ∧ m₁ = m₂ ∧ u₁ = u₂ := by
  obtain ⟨heq, hu⟩ := List.append_inj' heq (hu₁.trans hu₂.symm)
  obtain ⟨heq, hm⟩ := List.append_inj' heq rfl
  obtain ⟨heq, hn⟩ := List.append_inj' heq rfl
  obtain ⟨heq, hv⟩ := List.append_inj' heq rfl
  have hmod : a₁ % 256 = a₂ % 256 := by
    have := List.append_cancel_left heq
    simpa using this
  rw [Nat.mod_eq_of_lt ha₁, Nat.mod_eq_of_lt ha₂] at hmod
  exact ⟨hmod, u64LE_inj hv₁ hv₂ hv, u64LE_inj hn₁ hn₂ hn,
    u64LE_inj hm₁ hm₂ hm, hu⟩

/-- C4: canonical message construction is deterministic — equal inputs give
equal outputs for `create_attestation_message_v3` and `create_vote_message` —
and, under any collision-free hash, changing any single field (asset id,
nonce, user, amount or version, respectively block hash or slot) changes the
output; in particular two distinct asset ids with identical nonce, user,
amount and version yield different canonical messages. -/
theorem C4_canonical_message_deterministic_and_field_sensitive :
    (∀ (h : Bytes → Bytes) (a₁ a₂ n₁ n₂ m₁ m₂ v₁ v₂ : Nat) (u₁ u₂ : Pubkey),
      a₁ = a₂ → n₁ = n₂ → u₁ = u₂ → m₁ = m₂ → v₁ = v₂ →
      create_attestation_message_v3 h a₁ n₁ u₁ m₁ v₁ =
        create_attestation_message_v3 h a₂ n₂ u₂ m₂ v₂) ∧
    (∀ (k : Bytes → Bytes) (bh₁ bh₂ : Bytes) (s₁ s₂ : Nat),
      bh₁ = bh₂ → s₁ = s₂ →
      create_vote_message k bh₁ s₁ = create_vote_message k bh₂ s₂) ∧
    (∀ (h : Bytes → Bytes), Function.Injective h →
      ∀ (a₁ a₂ n₁ n₂ m₁ m₂ v₁ v₂ : Nat) (u₁ u₂ : Pubkey),
      a₁ < 256 → a₂ < 256 →
      n₁ < 18446744073709551616 → n₂ < 18446744073709551616 →
      m₁ < 18446744073709551616 → m₂ < 18446744073709551616 →
      v₁ < 18446744073709551616 → v₂ < 18446744073709551616 →
      u₁.length = 32 → u₂.length = 32 →
      create_attestation_message_v3 h a₁ n₁ u₁ m₁ v₁ =
        create_attestation_message_v3 h a₂ n₂ u₂ m₂ v₂ →
      a₁ = a₂ ∧ n₁ = n₂ ∧ u₁ = u₂ ∧ m₁ = m₂ ∧ v₁ = v₂) ∧
    (∀ (k : Bytes → Bytes), Function.Injective k →
      ∀ (bh₁ bh₂ : Bytes) (s₁ s₂ : Nat),
      s₁ < 18446744073709551616 → s₂ < 18446744073709551616 →
      create_vote_message k bh₁ s₁ = create_vote_message k bh₂ s₂ →
      bh₁ = bh₂ ∧ s₁ = s₂) ∧
    (∀ (h : Bytes → Bytes), Function.Injective h →
      ∀ (a₁ a₂ n m v : Nat) (u : Pubkey),
      a₁ < 256 → a₂ < 256 → a₁ ≠ a₂ →
      n < 18446744073709551616 → m < 18446744073709551616 →
      v < 18446744073709551616 → u.length = 32 →
      create_attestation_message_v3 h a₁ n u m v ≠
        create_attestation_message_v3 h a₂ n u m v) := by
  refine ⟨?_, ?_, ?_, ?_, ?_⟩
  · intro h a₁ a₂ n₁ n₂ m₁ m₂ v₁ v₂ u₁ u₂ ha hn hu hm hv
    rw [ha, hn, hu, hm, hv]
  · intro k bh₁ bh₂ s₁ s₂ hb hs
    rw [hb, hs]
  · intro h hinj a₁ a₂ n₁ n₂ m₁ m₂ v₁ v₂ u₁ u₂ ha₁ ha₂ hn₁ hn₂ hm₁ hm₂ hv₁ hv₂
      hu₁ hu₂ heq
    have hdata := hinj heq
    obtain ⟨ha, hv, hn, hm, hu⟩ := attestation_data_v3_inj ha₁ ha₂ hv₁ hv₂
      hn₁ hn₂ hm₁ hm₂ hu₁ hu₂ hdata
    exact ⟨ha, hn, hu, hm, hv⟩
  · intro k kinj bh₁ bh₂ s₁ s₂ hs₁ hs₂ heq
    have hdata := kinj heq
    obtain ⟨hb, hs⟩ := List.append_inj' hdata rfl
    exact ⟨hb, u64LE_inj hs₁ hs₂ hs⟩
  · intro h hinj a₁ a₂ n m v u ha₁ ha₂ hne hn hm hv hu heq
    have hdata := hinj heq
    obtain ⟨ha, -, -, -, -⟩ := attestation_data_v3_inj ha₁ ha₂ hv hv hn hn
      hm hm hu hu hdata
    exact hne ha

/-- C4 at a concrete input: with the identity hash, the canonical messages
for asset ids 1 (XENCAT) and 2 (DGN) with identical nonce, user, amount and
version differ. -/
theorem C4_canonical_message_witness :
    Function.Injective (fun b : Bytes => b) ∧
    create_attestation_message_v3 (fun b => b) 1 7 (pkOf 5) 1000 1 ≠
      create_attestation_message_v3 (fun b => b) 2 7 (pkOf 5) 1000 1 :=
  ⟨fun _ _ hx => hx,
    C4_canonical_message_deterministic_and_field_sensitive.2.2.2.2
      (fun b => b) (fun _ _ hx => hx) 1 2 7 1000 1 (pkOf 5)
      (by decide) (by decide) (by decide) (by decide) (by decide) (by decide)
      (List.length_replicate _ _)⟩

/-! ## C5 -/

/-- C5: `update_validator_set` succeeds only if the new threshold is positive
and at most the new roster size, the new roster is non-empty, and at least
the current threshold many non-duplicate approver signatures from members of
the current roster (each passing the per-signature check against the
deterministic update message) are presented; on success the version is
incremented by exactly one with `checked_add` — at `u64::MAX` the operation
fails instead of wrapping — and validators and threshold are replaced. -/
theorem C5_update_validator_set (h : Bytes → Bytes) (c : Chain)
    (params : UpdateValidatorSetParams) (c' : Chain) :
    (update_validator_set h c params = .ok c' →
      0 < params.new_threshold ∧
      params.new_threshold ≤ params.new_validators.length ∧
      params.new_validators ≠ [] ∧
      c.validatorSet.threshold ≤ params.approver_signatures.length ∧
      (params.approver_signatures.map (fun s => s.validator_pubkey)).Nodup ∧
      (∀ s ∈ params.approver_signatures,
        s.validator_pubkey ∈ c.validatorSet.validators) ∧
      c'.validatorSet.version = c.validatorSet.version + 1 ∧
      c.validatorSet.version + 1 < 18446744073709551616 ∧
      c'.validatorSet.validators = params.new_validators ∧
      c'.validatorSet.threshold = params.new_threshold) ∧
    (c.validatorSet.version = 18446744073709551615 →
      update_validator_set h c params ≠ .ok c') := by
  constructor
  · intro hu
    obtain ⟨hlen, hpos, hne, -, happ, ⟨n, hcount, -⟩, hbound, hc'⟩ :=
      update_success_inv hu
    obtain ⟨hnd, -⟩ := countApprovers_ok_nodup hcount
    refine ⟨hpos, hlen, hne, happ, hnd, countApprovers_ok_mem hcount,
      ?_, hbound, ?_, ?_⟩ <;> rw [hc']
  · intro hmax hu
    obtain ⟨-, -, -, -, -, -, hbound, -⟩ := update_success_inv hu
    omega

def rotParams : UpdateValidatorSetParams :=
  { new_validators := [pkOf 2], new_threshold := 1,
    approver_signatures := [{ validator_pubkey := pkOf 1,
                              signature := List.replicate 64 0 }] }

/-- The `sampleChain` after the roster rotation to version 2. -/
def rotatedChain : Chain :=
  { sampleChain with
      validatorSet := { version := 2, validators := [pkOf 2], threshold := 1,
                        bump := 0 } }

/-- C5 at a concrete input: a one-of-one rotation succeeds and bumps the
version from 1 to 2, replacing roster and threshold. -/
theorem C5_update_validator_set_witness :
    update_validator_set (fun b => b) sampleChain rotParams = .ok rotatedChain ∧
    (0 < rotParams.new_threshold ∧
    rotParams.new_threshold ≤ rotParams.new_validators.length ∧
    rotParams.new_validators ≠ [] ∧
    sampleChain.validatorSet.threshold ≤ rotParams.approver_signatures.length ∧
    (rotParams.approver_signatures.map (fun s => s.validator_pubkey)).Nodup ∧
    (∀ s ∈ rotParams.approver_signatures,
      s.validator_pubkey ∈ sampleChain.validatorSet.validators) ∧
    rotatedChain.validatorSet.version = sampleChain.validatorSet.version + 1 ∧
    sampleChain.validatorSet.version + 1 < 18446744073709551616 ∧
    rotatedChain.validatorSet.validators = rotParams.new_validators ∧
    rotatedChain.validatorSet.threshold = rotParams.new_threshold) :=
  ⟨rfl, (C5_update_validator_set (fun b => b) sampleChain rotParams
    rotatedChain).1 rfl⟩

/-! ## C6 -/

/-- C6 (amended): the legacy `verify_merkle_proof_internal` accepts a proof
only with at most 32 levels and only when the root recomputed from
`keccak(burn_record_data)` by the sorted-pair walk equals the claimed state
root; one combining step is symmetric — for two leaf hashes the parent
`hash(min(a,b) || max(a,b))` is the same whichever leaf the path starts
from, and when `a ≤ b` it equals `hash(a || b)`.  (The live alternative
`verify_merkle_proof_minimal` does not have this property; see the
counterexample.) -/
theorem C6_merkle_root_recomputation :
    (∀ (k : Bytes → Bytes) (proof : LegacyBurnProof) (r : Bool),
      verify_merkle_proof_internal k proof = .ok r →
      proof.merkle_proof.length ≤ 32 ∧
      fold_merkle k (k proof.burn_record_data) proof.merkle_proof =
        proof.state_root) ∧
    (∀ (k : Bytes → Bytes) (a b : Bytes), leBytes a b = true →
      fold_merkle k a [b] = k (a ++ b) ∧ fold_merkle k b [a] = k (a ++ b)) ∧
    (∀ (k : Bytes → Bytes) (a b : Bytes),
      fold_merkle k a [b] = fold_merkle k b [a]) := by
  refine ⟨?_, ?_, ?_⟩
  · intro k proof r hok
    unfold verify_merkle_proof_internal at hok
    by_cases hdepth : ¬ (proof.merkle_proof.length ≤ 32)
    · rw [if_pos hdepth] at hok; exact Except.noConfusion hok
    rw [if_neg hdepth] at hok
    by_cases hroot : ¬ (fold_merkle k (k proof.burn_record_data)
        proof.merkle_proof = proof.state_root)
    · rw [if_pos hroot] at hok; exact Except.noConfusion hok
    exact ⟨not_not.mp hdepth, not_not.mp hroot⟩
  · intro k a b hab
    refine ⟨by simp [fold_merkle, hab], ?_⟩
    cases hba : leBytes b a with
    | true =>
      have := leBytes_antisymm hab hba
      subst this
      simp [fold_merkle, hab]
    | false => simp [fold_merkle, hba]
  · intro k a b
    cases hab : leBytes a b with
    | true =>
      cases hba : leBytes b a with
      | true =>
        have := leBytes_antisymm hab hba
        subst this
        rfl
      | false => simp [fold_merkle, hab, hba]
    | false =>
      cases hba : leBytes b a with
      | true => simp [fold_merkle, hab, hba]
      | false =>
        rcases leBytes_total a b with htot | htot
        · rw [htot] at hab; exact Bool.noConfusion hab
        · rw [htot] at hba; exact Bool.noConfusion hba

/-- A legacy burn proof whose 89 record bytes decode to the all-zero
`BurnRecord` and whose (empty) Merkle path reproduces the claimed root. -/
def legacyProofOk : LegacyBurnProof :=
  { burn_nonce := 0, user := List.replicate 32 0, amount := 0,
    state_root := List.replicate 89 0, merkle_proof := [],
    burn_record_data := List.replicate 89 0 }

/-- C6 (amended) at a concrete input: the internal verifier accepts this
proof, whose recomputed root (identity hash) equals the claimed root. -/
theorem C6_merkle_root_recomputation_witness :
    verify_merkle_proof_internal (fun b => b) legacyProofOk = .ok true ∧
    (legacyProofOk.merkle_proof.length ≤ 32 ∧
      fold_merkle (fun b => b) ((fun b => b) legacyProofOk.burn_record_data)
        legacyProofOk.merkle_proof = legacyProofOk.state_root) :=
  ⟨rfl, C6_merkle_root_recomputation.1 (fun b => b) legacyProofOk true rfl⟩

def minProofA : BurnProof :=
  { burn_nonce := 7, user := pkOf 5, amount := 1000, slot := 100,
    block_hash := pkOf 3, state_root := pkOf 4, merkle_proof := [],
    validator_count := 3 }

def minProofB : BurnProof := { minProofA with state_root := pkOf 6 }

/-- C6 counterexample: the live `verify_merkle_proof_minimal` accepts the
same proof data under two different claimed state roots — it never
recomputes a root at all — so "the proof is accepted only if the recomputed
root equals the claimed state root" is false of it. -/
theorem C6_minimal_accepts_any_root :
    verify_merkle_proof_minimal minProofA = .ok () ∧
    verify_merkle_proof_minimal minProofB = .ok () ∧
    minProofA.state_root ≠ minProofB.state_root := by
  refine ⟨rfl, rfl, ?_⟩
  decide

/-! ## C7 -/

/-- C7: replay-guard keys are namespaced by asset.  The V3 seed lists of two
distinct (u8) asset ids differ; the keys used by the three exposed mint
operations for different assets (xencat V3 / legacy xencat vs. dgn V3) are
pairwise distinct PDAs; and at the state level a successful mint for one
asset never creates or changes the replay-guard or verified-burn entry of
any other asset for the same `(user, nonce)`, so it cannot make that asset's
mint fail with a replay error. -/
theorem C7_replay_keys_asset_namespaced :
    (∀ (a₁ a₂ nonce : Nat) (user : Pubkey), a₁ < 256 → a₂ < 256 → a₁ ≠ a₂ →
      processed_burn_v3_seeds a₁ nonce user ≠
        processed_burn_v3_seeds a₂ nonce user) ∧
    (∀ (n₁ n₂ : Nat) (u₁ u₂ : Pubkey),
      xencat_v3_replay_key n₁ u₁ ≠ dgn_v3_replay_key n₂ u₂) ∧
    (∀ (n₁ n₂ : Nat) (u : Pubkey),
      xencat_legacy_replay_key n₁ ≠ dgn_v3_replay_key n₂ u) ∧
    (∀ (p : MintProgramId) (c c' : Chain) (i : MintV3Input) (o : MintOutcome),
      mint_from_burn_v3 p c i = .ok (c', o) →
      ∀ (a₂ n' : Nat) (u' : Pubkey), a₂ ≠ i.asset_id →
        alookup c'.processedBurns (a₂, n', u') =
          alookup c.processedBurns (a₂, n', u') ∧
        alookup c'.verifiedBurns (a₂, u', n') =
          alookup c.verifiedBurns (a₂, u', n')) := by
  refine ⟨?_, ?_, ?_, ?_⟩
  · intro a₁ a₂ nonce user ha₁ ha₂ hne heq
    simp only [processed_burn_v3_seeds, List.cons.injEq, and_true, true_and] at heq
    rw [Nat.mod_eq_of_lt ha₁, Nat.mod_eq_of_lt ha₂] at heq
    exact hne heq
  · intro n₁ n₂ u₁ u₂ heq
    have hprog : XENCAT_MINT_PROGRAM_ID = DGN_MINT_PROGRAM_ID :=
      congrArg PdaKey.program_id heq
    exact absurd hprog (by decide)
  · intro n₁ n₂ u heq
    have hprog : XENCAT_MINT_PROGRAM_ID = DGN_MINT_PROGRAM_ID :=
      congrArg PdaKey.program_id heq
    exact absurd hprog (by decide)
  · intro p c c' i o hsucc a₂ n' u' hne
    obtain ⟨verified, -, -, -, -, -, -, -, -, -, -, -, -, -, -, hvb, hpb, -,
      -, -⟩ := mint_success_inv hsucc
    constructor
    · rw [hpb, alookup_ainsert, if_neg]
      intro hk
      exact hne (congrArg Prod.fst hk)
    · rw [hvb, alookup_aupdate, if_neg]
      rintro ⟨hk, -⟩
      exact hne (congrArg Prod.fst hk)

/-- C7 at concrete inputs: the XENCAT and DGN seed lists for the same
`(user, nonce)` differ, and the successful XENCAT mint leaves the DGN
entries for the same `(user, nonce)` untouched. -/
theorem C7_replay_keys_witness :
    processed_burn_v3_seeds 1 7 (pkOf 5) ≠ processed_burn_v3_seeds 2 7 (pkOf 5) ∧
    mint_from_burn_v3 .xencat sampleChain sampleMintInput =
      .ok (samplePostChain, sampleOutcome) ∧
    (alookup samplePostChain.processedBurns (2, 7, pkOf 5) =
        alookup sampleChain.processedBurns (2, 7, pkOf 5) ∧
      alookup samplePostChain.verifiedBurns (2, pkOf 5, 7) =
        alookup sampleChain.verifiedBurns (2, pkOf 5, 7)) :=
  ⟨C7_replay_keys_asset_namespaced.1 1 2 7 (pkOf 5) (by decide) (by decide)
      (by decide),
    rfl,
    C7_replay_keys_asset_namespaced.2.2.2 .xencat sampleChain samplePostChain
      sampleMintInput sampleOutcome rfl 2 7 (pkOf 5) (by decide)⟩

/-! ## C8 -/

/-- If the per-attestation check ignores the signature bytes (up to the fixed
64-byte format), the whole attestation loop does too. -/
theorem countAttestations_sig_irrelevant
    {verify : Pubkey → Bytes → Bytes → Except LightClientError Unit}
    (hverify : ∀ (pkey : Pubkey) (msg s₁ s₂ : Bytes), s₁.length = 64 →
      s₂.length = 64 → verify pkey msg s₁ = verify pkey msg s₂)
    {l₁ l₂ : List ValidatorAttestation}
    (hrel : List.Forall₂ (fun x y => x.validator_pubkey = y.validator_pubkey ∧
      x.signature.length = 64 ∧ y.signature.length = 64) l₁ l₂)
    (roster : List Pubkey) (msg : Bytes) (seen : List Pubkey) :
    countAttestations verify roster msg seen l₁ =
      countAttestations verify roster msg seen l₂ := by
  induction hrel generalizing seen with
  | nil => rfl
  | @cons a b l₁' l₂' hab hrest ih =>
    obtain ⟨hpk, h1, h2⟩ := hab
    simp only [countAttestations, hpk]
    rw [hverify b.validator_pubkey msg a.signature b.signature h1 h2, ih]

/-- The two batches carry the same validators (and timestamps) and differ
only in their 64-byte signature fields. -/
def SameExceptSignatures (l₁ l₂ : List ValidatorAttestation) : Prop :=
  List.Forall₂ (fun x y => x.validator_pubkey = y.validator_pubkey ∧
    x.timestamp = y.timestamp ∧
    x.signature.length = 64 ∧ y.signature.length = 64) l₁ l₂

/-- C8: in the trusted-signer path, the outcome of `submit_burn_attestation`
and `submit_burn_attestation_v3` does not depend on the signature bytes: two
requests identical except for the 64-byte signatures inside their
attestations produce identical results (same success state or same error) —
only roster membership, duplicate detection, version equality and the
threshold count matter. -/
theorem C8_signature_bytes_never_change_outcome :
    (∀ (h : Bytes → Bytes) (c : Chain) (i₁ i₂ : SubmitV3Input),
      i₁.asset_id = i₂.asset_id → i₁.burn_nonce = i₂.burn_nonce →
      i₁.signer = i₂.signer → i₁.now = i₂.now →
      i₁.attestation.asset_id = i₂.attestation.asset_id →
      i₁.attestation.burn_nonce = i₂.attestation.burn_nonce →
      i₁.attestation.user = i₂.attestation.user →
      i₁.attestation.amount = i₂.attestation.amount →
      i₁.attestation.validator_set_version =
        i₂.attestation.validator_set_version →
      SameExceptSignatures i₁.attestation.attestations
        i₂.attestation.attestations →
      submit_burn_attestation_v3 h c i₁ = submit_burn_attestation_v3 h c i₂) ∧
    (∀ (h : Bytes → Bytes) (c : Chain) (i₁ i₂ : SubmitV2Input),
      i₁.signer = i₂.signer → i₁.now = i₂.now →
      i₁.attestation.burn_nonce = i₂.attestation.burn_nonce →
      i₁.attestation.user = i₂.attestation.user →
      i₁.attestation.amount = i₂.attestation.amount →
      i₁.attestation.validator_set_version =
        i₂.attestation.validator_set_version →
      SameExceptSignatures i₁.attestation.attestations
        i₂.attestation.attestations →
      submit_burn_attestation h c i₁ = submit_burn_attestation h c i₂) := by
  constructor
  · intro h c i₁ i₂ ha hn hs hw haa han hau ham hav hrel
    have hverify3 : ∀ (pkey : Pubkey) (msg s₁ s₂ : Bytes), s₁.length = 64 →
        s₂.length = 64 → verify_ed25519_signature_v3 pkey msg s₁ =
          verify_ed25519_signature_v3 pkey msg s₂ :=
      fun _ _ _ _ _ _ => rfl
    have hcount := countAttestations_sig_irrelevant hverify3
      (List.Forall₂.imp (fun _ _ hp => ⟨hp.1, hp.2.2.1, hp.2.2.2⟩) hrel)
      c.validatorSet.validators
      (create_attestation_message_v3 h i₂.attestation.asset_id
        i₂.attestation.burn_nonce i₂.attestation.user i₂.attestation.amount
        i₂.attestation.validator_set_version)
      []
    unfold submit_burn_attestation_v3
    rw [ha, hn, hs, hw, haa, han, hau, ham, hav, hcount]
  · intro h c i₁ i₂ hs hw han hau ham hav hrel
    have hverify2 : ∀ (pkey : Pubkey) (msg s₁ s₂ : Bytes), s₁.length = 64 →
        s₂.length = 64 → verify_ed25519_signature_v2 pkey msg s₁ =
          verify_ed25519_signature_v2 pkey msg s₂ := by
      intro pkey msg s₁ s₂ h1 h2
      simp [verify_ed25519_signature_v2, h1, h2]
    have hcount := countAttestations_sig_irrelevant hverify2
      (List.Forall₂.imp (fun _ _ hp => ⟨hp.1, hp.2.2.1, hp.2.2.2⟩) hrel)
      c.validatorSet.validators
      (create_attestation_message h i₂.attestation.burn_nonce
        i₂.attestation.user i₂.attestation.amount
        i₂.attestation.validator_set_version)
      []
    unfold submit_burn_attestation
    rw [hs, hw, han, hau, ham, hav, hcount]

def sampleSubmitInputAltSig : SubmitV3Input :=
  { sampleSubmitInput with
      attestation :=
        { sampleAttestationV3 with
            attestations := [{ validator_pubkey := pkOf 1,
                               signature := List.replicate 64 1,
                               timestamp := 0 }] } }

/-- C8 at a concrete input: replacing the 64-byte signature `00…0` by
`01…1` leaves the result of `submit_burn_attestation_v3` unchanged. -/
theorem C8_signature_bytes_witness :
    SameExceptSignatures sampleSubmitInput.attestation.attestations
      sampleSubmitInputAltSig.attestation.attestations ∧
    submit_burn_attestation_v3 (fun b => b) emptyChain sampleSubmitInput =
      submit_burn_attestation_v3 (fun b => b) emptyChain
        sampleSubmitInputAltSig := by
  have hrel : SameExceptSignatures sampleSubmitInput.attestation.attestations
      sampleSubmitInputAltSig.attestation.attestations :=
    List.Forall₂.cons
      ⟨rfl, rfl, List.length_replicate _ _, List.length_replicate _ _⟩
      List.Forall₂.nil
  exact ⟨hrel, C8_signature_bytes_never_change_outcome.1 (fun b => b)
    emptyChain sampleSubmitInput sampleSubmitInputAltSig rfl rfl rfl rfl rfl
    rfl rfl rfl rfl hrel⟩

/-! ## C9 -/

/-- Success inversion for the fee-distribution loop: it pairs the validators
with the first `validators.length` remaining accounts in order, requires key
equality and writability for each, and transfers `fee` to each validator —
accounts beyond that prefix are never examined. -/
theorem distributeFees_ok_inv {fee : Nat} {vs : List Pubkey}
    {rem : List FeeTarget} {l : List (Pubkey × Nat)}
    (h : distributeFees fee vs rem = .ok l) :
    vs.length ≤ rem.length ∧
    (rem.take vs.length).map (fun t => t.key) = vs ∧
    (∀ t ∈ rem.take vs.length, t.is_writable = true) ∧
    l = vs.map (fun v => (v, fee)) := by
  induction vs generalizing rem l with
  | nil =>
    simp only [distributeFees, Except.ok.injEq] at h
    simp [← h]
  | cons v vs' ih =>
    cases rem with
    | nil => simp only [distributeFees] at h; exact Except.noConfusion h
    | cons t ts =>
      simp only [distributeFees] at h
      split at h
      · exact Except.noConfusion h
      next hkey =>
      split at h
      · exact Except.noConfusion h
      next hwrit =>
      split at h
      next l' hl' =>
        rw [Except.ok.injEq] at h
        obtain ⟨hle, hmap, hwr, hl⟩ := ih hl'
        refine ⟨by simpa using hle, ?_, ?_, ?_⟩
        · simp only [List.length_cons, List.take_succ_cons, List.map_cons, hmap]
          rw [not_not.mp hkey]
        · intro x hx
          rw [List.length_cons, List.take_succ_cons] at hx
          rcases List.mem_cons.mp hx with hx | hx
          · rw [hx]; exact not_not.mp (by simpa using hwrit)
          · exact hwr x hx
        · rw [← h, hl, List.map_cons, not_not.mp hkey]
      · exact Except.noConfusion h

/-- The per-validator transfers of a uniform fee sum to
`fee × validator_count`. -/
theorem sum_of_uniform_fees (fee : Nat) (vs : List Pubkey) :
    ((vs.map (fun v => (v, fee))).map (fun tr : Pubkey × Nat => tr.2)).sum =
      fee * vs.length := by
  induction vs with
  | nil => simp
  | cons v vs ih =>
    rw [List.map_cons, List.map_cons, List.sum_cons, ih, List.length_cons,
      Nat.mul_succ, Nat.add_comm]

/-- C9 (amended): whenever a mint succeeds, the total fee
`fee_per_validator × validator_count` was computed with checked (overflow-
failing) multiplication; if the fee is positive, the caller supplied at
least one fee-target account per validator, in roster order, each matching
the key of the corresponding validator and writable (any missing or mismatching
target aborts the whole mint, with no partial fee payment observable), one
`fee_per_validator` transfer went to each validator, and the transfers sum
to `fee_per_validator × validator_count`; surplus accounts beyond the
roster length are ignored, and a zero fee transfers nothing. -/
theorem C9_fee_distribution_contract (p : MintProgramId) (c c' : Chain)
    (i : MintV3Input) (o : MintOutcome)
    (hsucc : mint_from_burn_v3 p c i = .ok (c', o)) :
    (c.mintStateOf p).fee_per_validator * c.validatorSet.validators.length <
      18446744073709551616 ∧
    (0 < (c.mintStateOf p).fee_per_validator →
      c.validatorSet.validators.length ≤ i.remaining_accounts.length ∧
      (i.remaining_accounts.take c.validatorSet.validators.length).map
        (fun t => t.key) = c.validatorSet.validators ∧
      (∀ t ∈ i.remaining_accounts.take c.validatorSet.validators.length,
        t.is_writable = true) ∧
      o.fee_transfers = c.validatorSet.validators.map
        (fun v => (v, (c.mintStateOf p).fee_per_validator)) ∧
      (o.fee_transfers.map (fun tr => tr.2)).sum =
        (c.mintStateOf p).fee_per_validator *
          c.validatorSet.validators.length) ∧
    ((c.mintStateOf p).fee_per_validator = 0 → o.fee_transfers = []) := by
  obtain ⟨verified, -, -, -, -, -, -, -, -, -, hmul, hfees, -, -, -, -, -, -,
    -, -⟩ := mint_success_inv hsucc
  refine ⟨hmul, ?_, ?_⟩
  · intro hpos
    rw [if_pos hpos] at hfees
    obtain ⟨hle, hmap, hwr, hl⟩ := distributeFees_ok_inv hfees
    refine ⟨hle, hmap, hwr, hl, ?_⟩
    rw [hl]
    exact sum_of_uniform_fees (c.mintStateOf p).fee_per_validator
      c.validatorSet.validators
  · intro hzero
    rw [if_neg (by omega)] at hfees
    rw [Except.ok.injEq] at hfees
    exact hfees.symm

def feeMintState : MintState := { sampleMintState with fee_per_validator := 5 }

/-- The `sampleChain` with a positive per-validator fee in the xencat program. -/
def feeChain : Chain := { sampleChain with xencatMintState := feeMintState }

/-- A mint request supplying two fee targets for a one-validator roster. -/
def feeMintInput : MintV3Input :=
  { sampleMintInput with
      remaining_accounts := [{ key := pkOf 1, is_writable := true },
                             { key := pkOf 2, is_writable := true }] }

def feePostChain : Chain :=
  { feeChain with
      verifiedBurns := [((1, pkOf 5, 7), { sampleVerified with processed := true })]
      processedBurns := [((1, 7, pkOf 5),
        { asset_id := 1, nonce := 7, user := pkOf 5, amount := 1000, processed_at := 0 })]
      xencatMintState :=
        { feeMintState with processed_burns_count := 1, total_minted := 1000 } }

def feeOutcome : MintOutcome :=
  { minted := 1000
    event := { asset_id := 1, nonce := 7, user := pkOf 5, amount := 1000 }
    fee_transfers := [(pkOf 1, 5)] }

/-- C9 counterexample to the claim as stated: the mint succeeds although the
caller supplied two fee-target accounts for a one-validator roster — the
handler requires at least one target per validator but silently ignores the
surplus, so "exactly one caller-supplied fee-target account per validator"
is not required. -/
theorem C9_extra_fee_targets_accepted :
    mint_from_burn_v3 .xencat feeChain feeMintInput =
      .ok (feePostChain, feeOutcome) ∧
    feeMintInput.remaining_accounts.length = 2 ∧
    feeChain.validatorSet.validators.length = 1 :=
  ⟨rfl, rfl, rfl⟩

/-- C9 (amended) at a concrete input: one validator, fee 5, two supplied
targets; the first target receives the fee, the total is 5 × 1. -/
theorem C9_fee_distribution_witness :
    mint_from_burn_v3 .xencat feeChain feeMintInput =
      .ok (feePostChain, feeOutcome) ∧
    ((feeChain.mintStateOf .xencat).fee_per_validator *
        feeChain.validatorSet.validators.length < 18446744073709551616 ∧
    (0 < (feeChain.mintStateOf .xencat).fee_per_validator →
      feeChain.validatorSet.validators.length ≤
        feeMintInput.remaining_accounts.length ∧
      (feeMintInput.remaining_accounts.take
        feeChain.validatorSet.validators.length).map (fun t => t.key) =
        feeChain.validatorSet.validators ∧
      (∀ t ∈ feeMintInput.remaining_accounts.take
        feeChain.validatorSet.validators.length, t.is_writable = true) ∧
      feeOutcome.fee_transfers = feeChain.validatorSet.validators.map
        (fun v => (v, (feeChain.mintStateOf .xencat).fee_per_validator)) ∧
      (feeOutcome.fee_transfers.map (fun tr => tr.2)).sum =
        (feeChain.mintStateOf .xencat).fee_per_validator *
          feeChain.validatorSet.validators.length) ∧
    ((feeChain.mintStateOf .xencat).fee_per_validator = 0 →
      feeOutcome.fee_transfers = [])) :=
  ⟨rfl, C9_fee_distribution_contract .xencat feeChain feePostChain
    feeMintInput feeOutcome rfl⟩

/-! ## C10 -/

def oldVersionAttestation : BurnAttestationDataV3 :=
  { asset_id := 1, burn_nonce := 9, user := pkOf 6, amount := 5,
    validator_set_version := 1,
    attestations := [{ validator_pubkey := pkOf 2,
                       signature := List.replicate 64 0, timestamp := 0 }] }

def oldVersionSubmitInput : SubmitV3Input :=
  { asset_id := 1, burn_nonce := 9, signer := pkOf 6,
    attestation := oldVersionAttestation, now := 0 }

/-- C10 counterexample to the claim as stated: after the validator set is
rotated from version 1 to version 2, the previously verified and still
unprocessed `VerifiedBurnV3` record can *not* be minted — the mint that
succeeded before the rotation now fails with `ValidatorSetVersionMismatch`,
because `MintState.validator_set_version` is fixed at initialization and no
instruction updates it.  (A new attestation batch carrying the old version
is rejected, as the claim also says.) -/
theorem C10_rotation_blocks_previously_verified_mint :
    mint_from_burn_v3 .xencat sampleChain sampleMintInput =
      .ok (samplePostChain, sampleOutcome) ∧
    update_validator_set (fun b => b) sampleChain rotParams = .ok rotatedChain ∧
    alookup rotatedChain.verifiedBurns (1, pkOf 5, 7) = some sampleVerified ∧
    sampleVerified.processed = false ∧
    mint_from_burn_v3 .xencat rotatedChain sampleMintInput =
      .error .ValidatorSetVersionMismatch ∧
    submit_burn_attestation_v3 (fun b => b) rotatedChain oldVersionSubmitInput =
      .error .InvalidValidatorSetVersion :=
  ⟨rfl, rfl, rfl, rfl, rfl, rfl⟩

/-- C10 (amended): after a successful `update_validator_set`, a new
attestation batch carrying the old `validator_set_version` is rejected; and
for a mint program whose `MintState.validator_set_version` matched the
pre-rotation roster version (as `initialize` sets and nothing ever updates),
no `mint_from_burn_v3` call can succeed in the post-rotation state — the
pinned version no longer matches, so even already-verified unprocessed
records are not mintable until the roster returns to the pinned version. -/
theorem C10_rotation_version_pinning (h : Bytes → Bytes) (c c' : Chain)
    (params : UpdateValidatorSetParams)
    (hu : update_validator_set h c params = .ok c') :
    (∀ (p : MintProgramId),
      (c.mintStateOf p).validator_set_version = c.validatorSet.version →
      ∀ (i : MintV3Input) (z : Chain × MintOutcome),
        mint_from_burn_v3 p c' i ≠ .ok z) ∧
    (∀ (h₂ : Bytes → Bytes) (i : SubmitV3Input) (c'' : Chain),
      submit_burn_attestation_v3 h₂ c' i = .ok c'' →
      i.attestation.validator_set_version ≠ c.validatorSet.version) := by
  obtain ⟨-, -, -, -, -, -, -, hc'⟩ := update_success_inv hu
  constructor
  · intro p hsync i z hmint
    obtain ⟨c₂, o₂⟩ := z
    obtain ⟨-, -, -, hver, -⟩ := mint_success_inv hmint
    have hms : c'.mintStateOf p = c.mintStateOf p := by
      rw [hc']; cases p <;> rfl
    rw [hms, hsync, hc'] at hver
    simp at hver
  · intro h₂ i c'' hsub hver
    obtain ⟨-, -, -, -, hv, -, -⟩ := submitV3_success_inv hsub
    rw [hver, hc'] at hv
    simp at hv

/-- C10 (amended) at a concrete input: after the sample rotation, the mint
that would have succeeded pre-rotation cannot succeed. -/
theorem C10_rotation_version_pinning_witness :
    update_validator_set (fun b => b) sampleChain rotParams = .ok rotatedChain ∧
    (sampleChain.mintStateOf .xencat).validator_set_version =
      sampleChain.validatorSet.version ∧
    mint_from_burn_v3 .xencat rotatedChain sampleMintInput ≠
      .ok (samplePostChain, sampleOutcome) :=
  ⟨rfl, rfl,
    (C10_rotation_version_pinning (fun b => b) sampleChain rotatedChain
      rotParams rfl).1 .xencat rfl sampleMintInput
      (samplePostChain, sampleOutcome)⟩
